import Mathlib

/-!
# Token lifecycle of `suisrc/auth.zgo`, package `jwt`

A shallow embedding of `src/jwt/auth.go`, `src/jwt/token.go` and
`src/jwt/token_get.go`.

* Go `error` results are `Option Err` (`none` is `nil`); results of shape
  `(T, error)` are `Except Err T`.
* The revocation store (`res.Storer`) is an interface over a state of type `S`;
  every operation of the orchestrator threads a `World S`, which holds the
  store state together with the list of store calls issued so far.
* `time.Now()` is an explicit argument `now`.
* Go `int`/`int64` values are integers; `time.Duration` arithmetic wraps
  modulo `2^64` where the source multiplies.
-/

namespace Jwt

/-! ## Errors -/

/-- Modelled from the spec: the error values of the parent package `auth`
(`auth.ErrNoneToken`, `auth.ErrInvalidToken`, `auth.ErrExpiredToken`, section 7
of the specification), next to the errors of the collaborators:
`validation Errors` is a `*jwt.ValidationError` with bit field `Errors`,
`wrap msg inner` is an error whose `Unwrap` yields `inner`, and `other msg` is
any other error (store I/O, signing, hook failures). -/
inductive Err where
  | ErrNoneToken : Err
  | ErrInvalidToken : Err
  | ErrExpiredToken : Err
  | validation (Errors : Nat) : Err
  | wrap (msg : String) (inner : Err) : Err
  | other (msg : String) : Err
  deriving DecidableEq, Repr

/-- The flag `jwt.ValidationErrorSignatureInvalid` of `dgrijalva/jwt-go`
(`1 << 2`). -/
def ValidationErrorSignatureInvalid : Nat := 4

/-- The flag `jwt.ValidationErrorExpired` of `dgrijalva/jwt-go` (`1 << 4`). -/
def ValidationErrorExpired : Nat := 16

/-- The type assertion `err.(*jwt.ValidationError)`: it succeeds only when the
error itself is a validation error, and then yields its bit field. -/
def Err.assertValidation : Err → Option Nat
  | .validation flags => some flags
  | _ => none

/-- The call `errors.As(err, &e)` with `e` of type `*jwt.ValidationError`: it
walks the `Unwrap` chain and reports whether a validation error is found. -/
def Err.asValidation : Err → Bool
  | .validation _ => true
  | .wrap _ inner => inner.asValidation
  | _ => false

/-! ## Time -/

/-- One second as a `time.Duration` (nanoseconds). -/
def Second : Int := 1000000000

/-- Largest `time.Duration`, `1<<63 - 1` nanoseconds. -/
def maxDuration : Int := 9223372036854775807

/-- Smallest `time.Duration`, `-1 << 63` nanoseconds. -/
def minDuration : Int := -9223372036854775808

/-- Two's complement wrap-around of a 64-bit signed integer. -/
def wrapInt64 (x : Int) : Int :=
  (x + 9223372036854775808) % 18446744073709551616 - 9223372036854775808

/-- Go integer division, which truncates toward zero. -/
def quoT (a b : Int) : Int :=
  if 0 ≤ a then a / b else -((-a) / b)

/-- Go integer remainder, which takes the sign of the dividend. -/
def remT (a b : Int) : Int :=
  if 0 ≤ a then a % b else -((-a) % b)

/-- A `time.Time`: seconds since the Unix epoch and the nanoseconds within the
second (`0 ≤ nsec < 10^9`). -/
structure Time where
  sec : Int
  nsec : Int
  deriving DecidableEq, Repr

/-- The method `Time.Unix()`. -/
def Time.Unix (t : Time) : Int := t.sec

/-- The function `time.Unix(sec, 0)`. -/
def unixTime (sec : Int) : Time := ⟨sec, 0⟩

/-- The method `Time.Add(d)` of the Go standard library. -/
def Time.Add (t : Time) (d : Int) : Time :=
  let dsec := quoT d 1000000000
  let nsec := t.nsec + remT d 1000000000
  if 1000000000 ≤ nsec then ⟨t.sec + (dsec + 1), nsec - 1000000000⟩
  else if nsec < 0 then ⟨t.sec + (dsec - 1), nsec + 1000000000⟩
  else ⟨t.sec + dsec, nsec⟩

/-- Nanoseconds from the Unix epoch to `t`. -/
def Time.nanos (t : Time) : Int := t.sec * 1000000000 + t.nsec

/-- The method `Time.Sub(u)` of the Go standard library: the duration `t - u`,
replaced by the largest (smallest) duration when it is out of range. -/
def Time.Sub (t u : Time) : Int :=
  let d := t.nanos - u.nanos
  if d < minDuration then minDuration
  else if maxDuration < d then maxDuration
  else d

/-- The expression `time.Duration(n) * time.Second` for an `int` value `n`. -/
def secondsDuration (n : Int) : Int := wrapInt64 (n * Second)

/-! ## Data model -/

/-- Modelled from the spec: the type `UserClaims` (section 3, Claims), whose
declaration is not among the source files: the token identifier, the three
Unix timestamps of the validity window and the identity payload. -/
structure UserClaims where
  Id : String
  IssuedAt : Int
  NotBefore : Int
  ExpiresAt : Int
  identity : List (String × String)
  deriving DecidableEq, Repr

/-- Modelled from the spec: the method `UserClaims.GetTokenID`, whose
definition is not among the source files; it returns the token identifier
that keys the revocation store. -/
def UserClaims.GetTokenID (c : UserClaims) : String := c.Id

/-- Modelled from the spec: a value of the interface `auth.UserInfo` is either
a `*UserClaims` of this package or a value of another implementation, of which
only its identity data is kept. -/
inductive UserInfo where
  | claims (c : UserClaims) : UserInfo
  | foreign (tokenID : String) (identity : List (String × String)) : UserInfo
  deriving DecidableEq, Repr

/-- The struct `TokenInfo` of `token.go`. -/
structure TokenInfo where
  TokenID : String
  AccessToken : String
  ExpiresAt : Int
  RefreshToken : String
  RefreshExpAt : Int
  deriving DecidableEq, Repr

/-- A `jwt.SigningMethod`, identified by the name `Alg()` returns. -/
structure SigningMethod where
  Alg : String
  deriving DecidableEq, Repr

/-- The method `jwt.SigningMethodHS512`. -/
def SigningMethodHS512 : SigningMethod := ⟨"HS512"⟩

/-- A key held in an `interface{}`: the bytes of a string (`[]byte(s)`) or a
key of another kind. -/
inductive Key where
  | bytes (s : String) : Key
  | foreign (tag : String) : Key
  deriving DecidableEq, Repr

/-- The fields of a `jwt.Token` the package reads or writes. `Method` is the
method the parser derived from the header, `none` when it is `nil`. -/
structure Token where
  Raw : String
  Header : List (String × String)
  Claims : Option UserClaims
  Method : Option SigningMethod
  deriving DecidableEq, Repr

/-- A `context.Context`: either a plain context or a `res.Context` of a
request, of which `GetHeader` is kept. -/
inductive Context where
  | background : Context
  | request (GetHeader : String → String) : Context

/-! ## Collaborators -/

/-- One call to the revocation store, as recorded in the world. -/
inductive StoreCall where
  | Check (key : String) : StoreCall
  | Set1 (key : String) (ttl : Int) : StoreCall
  | Close : StoreCall
  deriving DecidableEq, Repr

/-- The interface `res.Storer` over a store state `S`: existence check, write
with a time to live, and close. Every method returns the next store state. -/
structure Storer (S : Type) where
  Check : S → Context → String → Except Err Bool × S
  Set1 : S → Context → String → Int → Option Err × S
  Close : S → Option Err × S

/-- The store state together with the store calls issued so far, oldest
first. -/
structure World (S : Type) where
  state : S
  calls : List StoreCall

/-- The call `store.Check(c, key)`, recorded in the world. -/
def storeCheck {S : Type} (store : Storer S) (w : World S) (c : Context) (key : String) :
    Except Err Bool × World S :=
  ((store.Check w.state c key).1,
    ⟨(store.Check w.state c key).2, w.calls ++ [StoreCall.Check key]⟩)

/-- The call `store.Set1(c, key, ttl)`, recorded in the world. -/
def storeSet1 {S : Type} (store : Storer S) (w : World S) (c : Context) (key : String)
    (ttl : Int) : Option Err × World S :=
  ((store.Set1 w.state c key ttl).1,
    ⟨(store.Set1 w.state c key ttl).2, w.calls ++ [StoreCall.Set1 key ttl]⟩)

/-- The call `store.Close()`, recorded in the world. -/
def storeClose {S : Type} (store : Storer S) (w : World S) : Option Err × World S :=
  ((store.Close w.state).1, ⟨(store.Close w.state).2, w.calls ++ [StoreCall.Close]⟩)

/-- What the package uses without defining it in the source files at hand:
`NewUserInfo` and `NewRefreshToken` of this package, `crypto.UUID`, and the
signing and parsing entry points of `dgrijalva/jwt-go`. `ParseWithClaims skip
tokenString keyFunc` stands for `jwt.Parser` with `SkipClaimsValidation` set to
`skip`; on success it yields `token.Valid` and the claims it filled in. -/
structure Extern where
  NewUserInfo : UserInfo → UserClaims
  NewRefreshToken : String → String
  UUID : Nat → String
  SignedString : Token → Option Key → Except Err String
  ParseWithClaims : Bool → String → (Token → Token × Except Err (Option Key)) →
    Except Err (Bool × UserClaims)

/-! ## Options -/

/-- A parsing strategy held in `options`: one of the two method values bound to
the `Auther` under construction, or a function given by the caller. -/
inductive ParseStrategy where
  | parseTokenClaims : ParseStrategy
  | parseRefreshClaims : ParseStrategy
  | custom (f : Context → String → Except Err UserClaims) : ParseStrategy

/-- The struct `options`. A key function returns the token it was handed,
with the changes it made through the pointer, next to its results. The claims
hook returns the claims it was handed, as it left them, next to the refresh
lifetime. The signing strategy only reads the claims, as `NewWithClaims`
does. -/
structure options where
  tokenType : String
  expired : Int
  refresh : Int
  signingMethod : SigningMethod
  signingSecret : Option Key
  signingFunc : Context → UserClaims → SigningMethod → Option Key → Except Err String
  claimsFunc : Option (Context → UserClaims → Except Err (UserClaims × Int))
  keyFunc : Option (Context → Token → SigningMethod → Option Key →
    Token × Except Err (Option Key))
  parseClaimsFunc : ParseStrategy
  parseRefreshFunc : ParseStrategy
  tokenFunc : Context → Except Err String
  updateFunc : Option (Context → Option Err)

/-- The type `Option` of the package: a function applied to the options. -/
abbrev AuthOption := options → options

/-- The option `SetSigningMethod`. -/
def SetSigningMethod (method : SigningMethod) : AuthOption :=
  fun o => { o with signingMethod := method }

/-- The option `SetSigningSecret`. -/
def SetSigningSecret (secret : String) : AuthOption :=
  fun o => { o with signingSecret := some (Key.bytes secret) }

/-- The option `SetExpired`. -/
def SetExpired (expired : Int) : AuthOption :=
  fun o => { o with expired := expired }

/-- The option `SetRefresh`. -/
def SetRefresh (refresh : Int) : AuthOption :=
  fun o => { o with refresh := refresh }

/-- The option `SetKeyFunc`. -/
def SetKeyFunc (f : Option (Context → Token → SigningMethod → Option Key →
    Token × Except Err (Option Key))) : AuthOption :=
  fun o => { o with keyFunc := f }

/-- The option `SetNewClaims`. -/
def SetNewClaims
    (f : Context → UserClaims → SigningMethod → Option Key → Except Err String) :
    AuthOption :=
  fun o => { o with signingFunc := f }

/-- The option `SetTokenFunc`. -/
def SetTokenFunc (f : Context → Except Err String) : AuthOption :=
  fun o => { o with tokenFunc := f }

/-- The option `SetParseClaimsFunc`. -/
def SetParseClaimsFunc (f : Context → String → Except Err UserClaims) : AuthOption :=
  fun o => { o with parseClaimsFunc := ParseStrategy.custom f }

/-- The option `SetParseRefreshFunc`. -/
def SetParseRefreshFunc (f : Context → String → Except Err UserClaims) : AuthOption :=
  fun o => { o with parseRefreshFunc := ParseStrategy.custom f }

/-- The option `SetUpdateFunc`. -/
def SetUpdateFunc (f : Option (Context → Option Err)) : AuthOption :=
  fun o => { o with updateFunc := f }

/-- The option `SetFixClaimsFunc`. -/
def SetFixClaimsFunc
    (f : Option (Context → UserClaims → Except Err (UserClaims × Int))) : AuthOption :=
  fun o => { o with claimsFunc := f }

/-! ## Strategies of the package -/

/-- The function `KeyFuncCallback`: it overwrites the method of the token with
the configured one and returns the configured secret. -/
def KeyFuncCallback (_c : Context) (token : Token) (method : SigningMethod)
    (secret : Option Key) : Token × Except Err (Option Key) :=
  ({ token with Method := some method }, Except.ok secret)

/-- The function `NewWithClaims`. -/
def NewWithClaims (ext : Extern) (_c : Context) (claims : UserClaims)
    (method : SigningMethod) (secret : Option Key) : Except Err String :=
  let token : Token :=
    { Raw := "",
      Header := [("typ", "JWT"), ("alg", method.Alg)],
      Claims := some claims,
      Method := some method }
  ext.SignedString token secret

/-- The function `GetBearerToken` of `token_get.go`. `strings.HasPrefix` and
the slice `auth[len(prefix):]` are taken on the characters of the header. -/
def GetBearerToken (ctx : Context) : Except Err String :=
  match ctx with
  | Context.request getHeader =>
    let pfx := "Bearer "
    let auth := getHeader "Authorization"
    if auth ≠ "" ∧ pfx.toList.isPrefixOf auth.toList = true then
      Except.ok (String.mk (auth.toList.drop pfx.length))
    else Except.error Err.ErrNoneToken
  | Context.background => Except.error Err.ErrNoneToken

/-! ## The orchestrator -/

/-- The struct `Auther`; `store` is `none` when the store is `nil`. -/
structure Auther (S : Type) where
  opts : options
  store : Option (Storer S)

/-- The function `New`. -/
def New {S : Type} (ext : Extern) (store : Option (Storer S)) (opts : List AuthOption) :
    Auther S :=
  let o : options :=
    { tokenType := "JWT",
      expired := 2 * 3600,
      refresh := 7 * 24 * 3600,
      signingMethod := SigningMethodHS512,
      signingSecret := none,
      signingFunc := NewWithClaims ext,
      claimsFunc := none,
      keyFunc := some KeyFuncCallback,
      parseClaimsFunc := ParseStrategy.parseTokenClaims,
      parseRefreshFunc := ParseStrategy.parseRefreshClaims,
      tokenFunc := GetBearerToken,
      updateFunc := none }
  let o := opts.foldl (fun o opt => opt o) o
  let o :=
    match o.signingSecret with
    | none => { o with signingSecret := some (Key.bytes (ext.UUID 32)) }
    | some _ => o
  { opts := o, store := store }

/-- The method `Auther.callStore`. -/
def Auther.callStore {S : Type} (a : Auther S) (w : World S)
    (fn : Storer S → World S → Option Err × World S) : Option Err × World S :=
  match a.store with
  | some store => fn store w
  | none => (none, w)

/-- The method `Auther.Release`. -/
def Auther.Release {S : Type} (a : Auther S) (w : World S) : Option Err × World S :=
  a.callStore w (fun store w => storeClose store w)

/-- The method `Auther.keyFunc`. -/
def Auther.keyFunc {S : Type} (a : Auther S) (c : Context) (t : Token) :
    Token × Except Err (Option Key) :=
  match a.opts.keyFunc with
  | none => (t, Except.ok a.opts.signingSecret)
  | some f => f c t a.opts.signingMethod a.opts.signingSecret

/-- The method `Auther.parseTokenClaims`. -/
def Auther.parseTokenClaims {S : Type} (ext : Extern) (a : Auther S) (c : Context)
    (tokenString : String) : Except Err UserClaims :=
  let key := fun t => a.keyFunc c t
  match ext.ParseWithClaims false tokenString key with
  | Except.error err => Except.error err
  | Except.ok (valid, claims) =>
    if !valid then Except.error Err.ErrInvalidToken else Except.ok claims

/-- The method `Auther.parseRefreshClaims`. -/
def Auther.parseRefreshClaims {S : Type} (ext : Extern) (a : Auther S) (c : Context)
    (tokenString : String) : Except Err UserClaims :=
  let key := fun t => a.keyFunc c t
  match ext.ParseWithClaims true tokenString key with
  | Except.error err => Except.error err
  | Except.ok (valid, claims) =>
    if !valid then Except.error Err.ErrInvalidToken else Except.ok claims

/-- A call through a parsing strategy field of `options`. -/
def Auther.parse {S : Type} (ext : Extern) (a : Auther S) (strategy : ParseStrategy)
    (c : Context) (tkn : String) : Except Err UserClaims :=
  match strategy with
  | ParseStrategy.parseTokenClaims => a.parseTokenClaims ext c tkn
  | ParseStrategy.parseRefreshClaims => a.parseRefreshClaims ext c tkn
  | ParseStrategy.custom f => f c tkn

/-- The opening lines of `GetUserInfo` and of `RefreshToken`: the token handed
in, or, when it is empty, the one the extraction strategy finds. -/
def Auther.rawToken {S : Type} (a : Auther S) (c : Context) (tkn : String) :
    Except Err String :=
  if tkn = "" then a.opts.tokenFunc c else Except.ok tkn

/-- The reverse check both `GetUserInfo` and `RefreshToken` hand to
`callStore`: a marked identifier yields `ErrExpiredToken`. -/
def reverseCheck {S : Type} (c : Context) (claims : UserClaims) (store : Storer S)
    (w : World S) : Option Err × World S :=
  match storeCheck store w c ("token:" ++ claims.GetTokenID) with
  | (Except.error err, w1) => (some err, w1)
  | (Except.ok found, w1) => if found then (some Err.ErrExpiredToken, w1) else (none, w1)

/-- The method `Auther.GetUserInfo`. -/
def Auther.GetUserInfo {S : Type} (ext : Extern) (a : Auther S) (w : World S)
    (c : Context) (tkn : String) : Except Err UserClaims × World S :=
  match a.rawToken c tkn with
  | Except.error err => (Except.error err, w)
  | Except.ok tkn =>
    match a.parse ext a.opts.parseClaimsFunc c tkn with
    | Except.error err =>
      match err.assertValidation with
      | some flags =>
        if flags &&& ValidationErrorExpired > 0 then (Except.error Err.ErrExpiredToken, w)
        else (Except.error Err.ErrInvalidToken, w)
      | none => (Except.error err, w)
    | Except.ok claims =>
      match a.callStore w (reverseCheck c claims) with
      | (some err, w1) => (Except.error err, w1)
      | (none, w1) => (Except.ok claims, w1)

/-- The claims hook as `GenerateToken` and `RefreshToken` apply it: the claims
as the hook left them and the refresh lifetime in force. -/
def Auther.shapeClaims {S : Type} (a : Auther S) (c : Context) (claims : UserClaims) :
    Except Err (UserClaims × Int) :=
  let refresh := a.opts.refresh
  match a.opts.claimsFunc with
  | some f =>
    match f c claims with
    | Except.error err => Except.error err
    | Except.ok (claims, rfr) => if rfr > 0 then Except.ok (claims, rfr)
      else Except.ok (claims, refresh)
  | none => Except.ok (claims, refresh)

/-- The claims as `GenerateToken` and `RefreshToken` stamp them at `now`:
issued and valid from `now`, expiring after the configured access lifetime. -/
def Auther.stamp {S : Type} (a : Auther S) (now : Time) (claims : UserClaims) :
    UserClaims :=
  { claims with
    IssuedAt := now.Unix,
    NotBefore := now.Unix,
    ExpiresAt := (now.Add (secondsDuration a.opts.expired)).Unix }

/-- The method `Auther.GenerateToken`. -/
def Auther.GenerateToken {S : Type} (ext : Extern) (a : Auther S) (w : World S)
    (now : Time) (c : Context) (user : UserInfo) :
    Except Err (TokenInfo × UserClaims) × World S :=
  let claims := ext.NewUserInfo user
  let claims := { claims with
    IssuedAt := now.Unix,
    NotBefore := now.Unix,
    ExpiresAt := (now.Add (secondsDuration a.opts.expired)).Unix }
  match a.shapeClaims c claims with
  | Except.error err => (Except.error err, w)
  | Except.ok (claims, refresh) =>
    match a.opts.signingFunc c claims a.opts.signingMethod a.opts.signingSecret with
    | Except.error err => (Except.error err, w)
    | Except.ok tokenString =>
      let tokenInfo : TokenInfo :=
        { TokenID := claims.Id,
          AccessToken := tokenString,
          ExpiresAt := claims.ExpiresAt,
          RefreshToken := ext.NewRefreshToken claims.Id,
          RefreshExpAt := (now.Add (secondsDuration refresh)).Unix }
      (Except.ok (tokenInfo, claims), w)

/-- The method `Auther.RefreshToken`. The result of `callStore` is assigned to
`err` and never read: the next use of `err` is its assignment by the signing
call, so only the world the store call left behind is kept. The external check
`chk` only reads the claims. -/
def Auther.RefreshToken {S : Type} (ext : Extern) (a : Auther S) (w : World S)
    (now : Time) (c : Context) (tkn : String)
    (chk : Option (UserClaims → Int → Option Err)) :
    Except Err (TokenInfo × UserClaims) × World S :=
  match a.rawToken c tkn with
  | Except.error err => (Except.error err, w)
  | Except.ok tkn =>
    match a.parse ext a.opts.parseRefreshFunc c tkn with
    | Except.error err =>
      if err.asValidation then (Except.error Err.ErrInvalidToken, w)
      else (Except.error err, w)
    | Except.ok claims =>
      let w1 := (a.callStore w (reverseCheck c claims)).2
      match (match chk with
             | some f => f claims a.opts.refresh
             | none => none) with
      | some err => (Except.error err, w1)
      | none =>
        let claims := { claims with
          IssuedAt := now.Unix,
          NotBefore := now.Unix,
          ExpiresAt := (now.Add (secondsDuration a.opts.expired)).Unix }
        match a.opts.signingFunc c claims a.opts.signingMethod a.opts.signingSecret with
        | Except.error err => (Except.error err, w1)
        | Except.ok token =>
          match a.shapeClaims c claims with
          | Except.error err => (Except.error err, w1)
          | Except.ok (claims, refresh) =>
            let tokenInfo : TokenInfo :=
              { TokenID := claims.Id,
                AccessToken := token,
                ExpiresAt := claims.ExpiresAt,
                RefreshToken := ext.NewRefreshToken claims.Id,
                RefreshExpAt := (now.Add (secondsDuration refresh)).Unix }
            (Except.ok (tokenInfo, claims), w1)

/-- The method `Auther.DestroyToken`. -/
def Auther.DestroyToken {S : Type} (a : Auther S) (w : World S) (now : Time)
    (c : Context) (user : UserInfo) : Option Err × World S :=
  match user with
  | UserInfo.foreign _ _ => (some Err.ErrInvalidToken, w)
  | UserInfo.claims claims =>
    a.callStore w (fun store w =>
      let expired := (unixTime claims.ExpiresAt).Sub now
      storeSet1 store w c ("token:" ++ claims.GetTokenID) expired)

/-- The method `Auther.UpdateAuther`. -/
def Auther.UpdateAuther {S : Type} (a : Auther S) (c : Context) : Option Err :=
  match a.opts.updateFunc with
  | some f => f c
  | none => none

/-! ## Sample collaborators

Concrete stores, collaborators and claims on which the operations are
evaluated. -/

/-- A store whose state is the list of keys it holds: a write adds the key
and reports no error. -/
def listStore : Storer (List String) :=
  { Check := fun s _ key => (Except.ok (s.contains key), s),
    Set1 := fun s _ key _ => (none, key :: s),
    Close := fun s => (none, s) }

/-- A store every call of which fails. -/
def failingStore : Storer Unit :=
  { Check := fun s _ _ => (Except.error (Err.other "store unavailable"), s),
    Set1 := fun s _ _ _ => (some (Err.other "store unavailable"), s),
    Close := fun s => (some (Err.other "store unavailable"), s) }

/-- Collaborators for the samples: the signed string is the identifier behind
a fixed marker, and the library parser rejects every string as malformed. -/
def sampleExtern : Extern :=
  { NewUserInfo := fun user =>
      match user with
      | UserInfo.claims cl => cl
      | UserInfo.foreign id identity => ⟨id, 0, 0, 0, identity⟩,
    NewRefreshToken := fun id => "refresh:" ++ id,
    UUID := fun _ => "0123456789abcdef0123456789abcdef",
    SignedString := fun token _ =>
      match token.Claims with
      | some cl => Except.ok ("jwt:" ++ cl.Id)
      | none => Except.error (Err.other "no claims"),
    ParseWithClaims := fun _ _ _ => Except.error (Err.validation 1) }

/-- Claims of a session issued at second 100 for two hours. -/
def sampleClaims : UserClaims := ⟨"s1", 100, 100, 7300, [("name", "ann")]⟩

/-- An instant, 1000 seconds after the epoch. -/
def sampleNow : Time := ⟨1000, 0⟩

/-- An `Auther` over `listStore` both parsing strategies of which accept every
string as `sampleClaims`. -/
def sampleAuther : Auther (List String) :=
  New sampleExtern (some listStore)
    [SetParseClaimsFunc (fun _ _ => Except.ok sampleClaims),
     SetParseRefreshFunc (fun _ _ => Except.ok sampleClaims)]

/-- The same configuration over `failingStore`. -/
def failingAuther : Auther Unit :=
  New sampleExtern (some failingStore)
    [SetParseClaimsFunc (fun _ _ => Except.ok sampleClaims),
     SetParseRefreshFunc (fun _ _ => Except.ok sampleClaims)]

/-- An `Auther` over `listStore` both parsing strategies of which fail on every
string with the error `e`. -/
def rejectingAuther (e : Err) : Auther (List String) :=
  New sampleExtern (some listStore)
    [SetParseClaimsFunc (fun _ _ => Except.error e),
     SetParseRefreshFunc (fun _ _ => Except.error e)]

/-- A world in which the identifier of `sampleClaims` is marked as revoked. -/
def revokedWorld : World (List String) := ⟨["token:s1"], []⟩

/-- A world in which nothing is marked. -/
def cleanWorld : World (List String) := ⟨[], []⟩

/-- An identity handed to `GenerateToken` by a caller. -/
def sampleUser : UserInfo := UserInfo.foreign "u1" [("name", "ann")]

/-- An `Auther` without a store, configured with `SetExpired expired`, the
refresh parsing strategy of which accepts every string as `sampleClaims`. -/
def lifetimeAuther (expired : Int) : Auther (List String) :=
  New sampleExtern none
    [SetExpired expired, SetParseRefreshFunc (fun _ _ => Except.ok sampleClaims)]

/-- An `Auther` without a store whose claims hook sets `ExpiresAt` to zero and
keeps the configured refresh lifetime. -/
def hookAuther : Auther (List String) :=
  New sampleExtern none
    [SetFixClaimsFunc (some (fun _ cl => Except.ok ({ cl with ExpiresAt := 0 }, 0)))]

/-- Claims of a session whose access token ran out at second 100. -/
def staleClaims : UserClaims := ⟨"s0", 10, 10, 100, [("name", "bob")]⟩

/-- A token whose header declares the algorithm `none`. -/
def noneToken : Token :=
  ⟨"e30.e30.", [("typ", "JWT"), ("alg", "none")], none, some ⟨"none"⟩⟩

/-- An `Auther` built by `New` from options other than `SetKeyFunc`. -/
def pinnedAuther : Auther (List String) :=
  New sampleExtern none
    [SetExpired 60, SetSigningSecret "k", SetSigningMethod ⟨"HS256"⟩]

/-- An `Auther` without a store whose signing strategy returns the empty
string for every claims value and whose access parsing strategy maps the empty
string back to the claims `GenerateToken` builds for `sampleUser` at
`sampleNow`. -/
def emptySignAuther : Auther (List String) :=
  New sampleExtern none
    [SetNewClaims (fun _ _ _ _ => Except.ok ""),
     SetParseClaimsFunc (fun _ tk =>
       if tk = "" then Except.ok ⟨"u1", 1000, 1000, 8200, [("name", "ann")]⟩
       else Except.error (Err.validation 1))]

/-- An `Auther` over `listStore` whose access parsing strategy inverts the
sample signing strategy on the claims `GenerateToken` builds for `sampleUser`
at `sampleNow`. -/
def roundTripAuther : Auther (List String) :=
  New sampleExtern (some listStore)
    [SetParseClaimsFunc (fun _ tk =>
       if tk = "jwt:u1" then Except.ok ⟨"u1", 1000, 1000, 8200, [("name", "ann")]⟩
       else Except.error (Err.validation 1))]

/-- An `Auther` without a store, configured with `SetRefresh refresh`. -/
def refreshAuther (refresh : Int) : Auther (List String) :=
  New sampleExtern none [SetRefresh refresh]

/-- An `Auther` without a store whose claims hook leaves the claims alone and
returns the refresh lifetime `r`. -/
def refreshHookAuther (r : Int) : Auther (List String) :=
  New sampleExtern none [SetFixClaimsFunc (some (fun _ cl => Except.ok (cl, r)))]

/-- An `Auther` without a store whose claims hook fails. -/
def failingHookAuther : Auther (List String) :=
  New sampleExtern none
    [SetFixClaimsFunc (some (fun _ _ => Except.error (Err.other "hook refused")))]

/-- A request whose `Authorization` header is the bearer marker with nothing
behind it. -/
def bearerOnlyContext : Context :=
  Context.request (fun name => if name = "Authorization" then "Bearer " else "")

/-- A request whose `Authorization` header uses another scheme. -/
def basicContext : Context :=
  Context.request (fun name => if name = "Authorization" then "Basic dXNlcg==" else "")

/-- A request without an `Authorization` header. -/
def bareContext : Context := Context.request (fun _ => "")

/-- An `Auther` over `listStore` built by `New` without options. -/
def defaultAuther : Auther (List String) := New sampleExtern (some listStore) []

/-- An `Auther` without a store both parsing strategies of which accept every
string as `sampleClaims`. -/
def storelessAuther : Auther (List String) :=
  New sampleExtern none
    [SetParseClaimsFunc (fun _ _ => Except.ok sampleClaims),
     SetParseRefreshFunc (fun _ _ => Except.ok sampleClaims)]

/-! ## Revocation and refresh -/

/-- C1 (evaluation at the failing input): with the identifier of the parsed
claims marked in the store, `GetUserInfo` fails with `ErrExpiredToken`, while
`RefreshToken` on the same token consults the store once, drops the answer and
returns a freshly signed access token. -/
theorem refreshToken_signs_revoked_identifier :
    (listStore.Check revokedWorld.state Context.background
        ("token:" ++ sampleClaims.GetTokenID)).1 = Except.ok true ∧
    (sampleAuther.GetUserInfo sampleExtern revokedWorld Context.background "t").1
      = Except.error Err.ErrExpiredToken ∧
    (sampleAuther.RefreshToken sampleExtern revokedWorld sampleNow Context.background
        "t" none).1
      = Except.ok
          (⟨"s1", "jwt:s1", 8200, "refresh:s1", 605800⟩,
           ⟨"s1", 1000, 1000, 8200, [("name", "ann")]⟩) ∧
    (sampleAuther.RefreshToken sampleExtern revokedWorld sampleNow Context.background
        "t" none).2.calls = [StoreCall.Check "token:s1"] := by
  refine ⟨rfl, rfl, rfl, rfl⟩

/-- C2: revocation dominance. With a store configured and a raw token the
access parsing strategy accepts, `GetUserInfo` returns `ErrExpiredToken` and no
claims when the store reports the key of the identifier present, whatever the
timestamps of the claims, and returns the parsed claims when the store reports
the key absent. -/
theorem getUserInfo_revocation_dominance {S : Type} (ext : Extern) (a : Auther S)
    (store : Storer S) (w : World S) (c : Context) (tkn raw : String)
    (claims : UserClaims)
    (hstore : a.store = some store)
    (hraw : a.rawToken c tkn = Except.ok raw)
    (hparse : a.parse ext a.opts.parseClaimsFunc c raw = Except.ok claims) :
    ((store.Check w.state c ("token:" ++ claims.GetTokenID)).1 = Except.ok true →
      (a.GetUserInfo ext w c tkn).1 = Except.error Err.ErrExpiredToken) ∧
    ((store.Check w.state c ("token:" ++ claims.GetTokenID)).1 = Except.ok false →
      (a.GetUserInfo ext w c tkn).1 = Except.ok claims) := by
  constructor
  · intro hchk
    simp [Auther.GetUserInfo, hraw, hparse, Auther.callStore, hstore, reverseCheck,
      storeCheck, hchk]
  · intro hchk
    simp [Auther.GetUserInfo, hraw, hparse, Auther.callStore, hstore, reverseCheck,
      storeCheck, hchk]

/-- C2 (witness): the sample session, not yet expired at second 1000, is
refused once its identifier is marked and accepted while it is not. -/
theorem getUserInfo_revocation_dominance_witness :
    (sampleAuther.GetUserInfo sampleExtern revokedWorld Context.background "t").1
      = Except.error Err.ErrExpiredToken ∧
    (sampleAuther.GetUserInfo sampleExtern cleanWorld Context.background "t").1
      = Except.ok sampleClaims :=
  ⟨(getUserInfo_revocation_dominance sampleExtern sampleAuther listStore revokedWorld
      Context.background "t" "t" sampleClaims rfl rfl rfl).1 rfl,
   (getUserInfo_revocation_dominance sampleExtern sampleAuther listStore cleanWorld
      Context.background "t" "t" sampleClaims rfl rfl rfl).2 rfl⟩

/-- C3: the mapping of parse failures in `GetUserInfo`. When the access
parsing strategy fails with `e`, no claims are returned and the error is
`ErrExpiredToken` when `e` is a validation error with the expired flag,
`ErrInvalidToken` when `e` is a validation error without it, and `e` itself
when `e` is not a validation error. -/
theorem getUserInfo_parse_failure {S : Type} (ext : Extern) (a : Auther S) (w : World S)
    (c : Context) (tkn raw : String) (e : Err)
    (hraw : a.rawToken c tkn = Except.ok raw)
    (hparse : a.parse ext a.opts.parseClaimsFunc c raw = Except.error e) :
    (∀ flags, e = Err.validation flags → flags &&& ValidationErrorExpired ≠ 0 →
      (a.GetUserInfo ext w c tkn).1 = Except.error Err.ErrExpiredToken) ∧
    (∀ flags, e = Err.validation flags → flags &&& ValidationErrorExpired = 0 →
      (a.GetUserInfo ext w c tkn).1 = Except.error Err.ErrInvalidToken) ∧
    ((∀ flags, e ≠ Err.validation flags) →
      (a.GetUserInfo ext w c tkn).1 = Except.error e) := by
  refine ⟨?_, ?_, ?_⟩
  · intro flags he hflag
    subst he
    have hpos : flags &&& ValidationErrorExpired > 0 := Nat.pos_of_ne_zero hflag
    simp [Auther.GetUserInfo, hraw, hparse, Err.assertValidation, hpos]
  · intro flags he hflag
    subst he
    simp [Auther.GetUserInfo, hraw, hparse, Err.assertValidation, hflag]
  · intro hne
    cases e with
    | validation flags => exact absurd rfl (hne flags)
    | ErrNoneToken => simp [Auther.GetUserInfo, hraw, hparse, Err.assertValidation]
    | ErrInvalidToken => simp [Auther.GetUserInfo, hraw, hparse, Err.assertValidation]
    | ErrExpiredToken => simp [Auther.GetUserInfo, hraw, hparse, Err.assertValidation]
    | wrap msg inner => simp [Auther.GetUserInfo, hraw, hparse, Err.assertValidation]
    | other msg => simp [Auther.GetUserInfo, hraw, hparse, Err.assertValidation]

/-- C3 (witness): an expired token, a token with a bad signature and a parse
failure that is no validation error. -/
theorem getUserInfo_parse_failure_witness :
    ((rejectingAuther (Err.validation 16)).GetUserInfo sampleExtern cleanWorld
        Context.background "t").1 = Except.error Err.ErrExpiredToken ∧
    ((rejectingAuther (Err.validation 4)).GetUserInfo sampleExtern cleanWorld
        Context.background "t").1 = Except.error Err.ErrInvalidToken ∧
    ((rejectingAuther (Err.other "decode")).GetUserInfo sampleExtern cleanWorld
        Context.background "t").1 = Except.error (Err.other "decode") :=
  ⟨(getUserInfo_parse_failure sampleExtern (rejectingAuther (Err.validation 16))
      cleanWorld Context.background "t" "t" (Err.validation 16) rfl rfl).1 16 rfl
      (by decide),
   (getUserInfo_parse_failure sampleExtern (rejectingAuther (Err.validation 4))
      cleanWorld Context.background "t" "t" (Err.validation 4) rfl rfl).2.1 4 rfl
      (by decide),
   (getUserInfo_parse_failure sampleExtern (rejectingAuther (Err.other "decode"))
      cleanWorld Context.background "t" "t" (Err.other "decode") rfl rfl).2.2
      (by intro flags h; cases h)⟩

/-- C4 (counterexample): a validation error carrying both the signature-invalid
flag and the expired flag (`4 ||| 16 = 20`, what the library reports for an
expired token with a bad signature) is answered with `ErrExpiredToken`, not
with `ErrInvalidToken`. -/
theorem getUserInfo_signature_and_expired :
    (20 : Nat) &&& ValidationErrorSignatureInvalid ≠ 0 ∧
    (rejectingAuther (Err.validation 20)).parse sampleExtern
        (rejectingAuther (Err.validation 20)).opts.parseClaimsFunc Context.background "t"
      = Except.error (Err.validation 20) ∧
    ((rejectingAuther (Err.validation 20)).GetUserInfo sampleExtern cleanWorld
        Context.background "t").1 = Except.error Err.ErrExpiredToken ∧
    ((rejectingAuther (Err.validation 20)).GetUserInfo sampleExtern cleanWorld
        Context.background "t").1 ≠ Except.error Err.ErrInvalidToken := by
  refine ⟨by decide, rfl, rfl, ?_⟩
  intro h
  have h2 : (Except.error Err.ErrExpiredToken : Except Err UserClaims)
      = Except.error Err.ErrInvalidToken := h
  cases h2

/-- C4 (amended): when the access parsing strategy fails with a validation
error whose flags include the signature-invalid flag, `GetUserInfo` returns
`ErrInvalidToken` if the expired flag is not among the flags and
`ErrExpiredToken` if it is. -/
theorem getUserInfo_signature_failure {S : Type} (ext : Extern) (a : Auther S)
    (w : World S) (c : Context) (tkn raw : String) (flags : Nat)
    (hraw : a.rawToken c tkn = Except.ok raw)
    (hparse : a.parse ext a.opts.parseClaimsFunc c raw
      = Except.error (Err.validation flags))
    (_hsig : flags &&& ValidationErrorSignatureInvalid ≠ 0) :
    (flags &&& ValidationErrorExpired = 0 →
      (a.GetUserInfo ext w c tkn).1 = Except.error Err.ErrInvalidToken) ∧
    (flags &&& ValidationErrorExpired ≠ 0 →
      (a.GetUserInfo ext w c tkn).1 = Except.error Err.ErrExpiredToken) := by
  constructor
  · intro hflag
    simp [Auther.GetUserInfo, hraw, hparse, Err.assertValidation, hflag]
  · intro hflag
    have hpos : flags &&& ValidationErrorExpired > 0 := Nat.pos_of_ne_zero hflag
    simp [Auther.GetUserInfo, hraw, hparse, Err.assertValidation, hpos]

/-- C4 (witness): a bad signature alone, and a bad signature on an expired
token. -/
theorem getUserInfo_signature_failure_witness :
    ((rejectingAuther (Err.validation 4)).GetUserInfo sampleExtern cleanWorld
        Context.background "t").1 = Except.error Err.ErrInvalidToken ∧
    ((rejectingAuther (Err.validation 20)).GetUserInfo sampleExtern cleanWorld
        Context.background "t").1 = Except.error Err.ErrExpiredToken :=
  ⟨(getUserInfo_signature_failure sampleExtern (rejectingAuther (Err.validation 4))
      cleanWorld Context.background "t" "t" 4 rfl rfl (by decide)).1 (by decide),
   (getUserInfo_signature_failure sampleExtern (rejectingAuther (Err.validation 20))
      cleanWorld Context.background "t" "t" 20 rfl rfl (by decide)).2 (by decide)⟩

/-- C5 (evaluation at the failing input): over a store whose existence check
fails, `GetUserInfo` returns the error of the store and `DestroyToken` returns
the error of the write, but `RefreshToken` issues the check, drops its error
and returns a freshly signed access token. -/
theorem refreshToken_drops_store_error :
    (failingStore.Check () Context.background ("token:" ++ sampleClaims.GetTokenID)).1
      = Except.error (Err.other "store unavailable") ∧
    (failingAuther.GetUserInfo sampleExtern ⟨(), []⟩ Context.background "t").1
      = Except.error (Err.other "store unavailable") ∧
    (failingAuther.DestroyToken ⟨(), []⟩ sampleNow Context.background
        (UserInfo.claims sampleClaims)).1 = some (Err.other "store unavailable") ∧
    (failingAuther.RefreshToken sampleExtern ⟨(), []⟩ sampleNow Context.background
        "t" none).1
      = Except.ok
          (⟨"s1", "jwt:s1", 8200, "refresh:s1", 605800⟩,
           ⟨"s1", 1000, 1000, 8200, [("name", "ann")]⟩) ∧
    (failingAuther.RefreshToken sampleExtern ⟨(), []⟩ sampleNow Context.background
        "t" none).2.calls = [StoreCall.Check "token:s1"] := by
  refine ⟨rfl, rfl, rfl, rfl, rfl⟩

/-- C6: validation precedes the store. When the access parsing strategy fails,
`GetUserInfo` returns with the world it was given: the store state is
untouched and no store call is recorded. -/
theorem getUserInfo_parse_failure_no_store_call {S : Type} (ext : Extern) (a : Auther S)
    (w : World S) (c : Context) (tkn raw : String) (e : Err)
    (hraw : a.rawToken c tkn = Except.ok raw)
    (hparse : a.parse ext a.opts.parseClaimsFunc c raw = Except.error e) :
    (a.GetUserInfo ext w c tkn).2 = w := by
  simp only [Auther.GetUserInfo, hraw, hparse]
  cases h : e.assertValidation with
  | none => rfl
  | some flags =>
    by_cases hflag : flags &&& ValidationErrorExpired > 0
    · simp [hflag]
    · simp [hflag]

/-- C6 (witness): a token with a bad signature leaves the world, in which its
would-be identifier is marked, without any recorded call. -/
theorem getUserInfo_parse_failure_no_store_call_witness :
    ((rejectingAuther (Err.validation 4)).GetUserInfo sampleExtern revokedWorld
        Context.background "t").2 = revokedWorld ∧
    revokedWorld.calls = [] :=
  ⟨getUserInfo_parse_failure_no_store_call sampleExtern
      (rejectingAuther (Err.validation 4)) revokedWorld Context.background "t" "t"
      (Err.validation 4) rfl rfl, rfl⟩

/-! ## The validity window -/

/-- A lifetime of `n` seconds that fits a `time.Duration` is not wrapped. -/
theorem secondsDuration_of_fit (n : Int) (hpos : 0 < n) (hfit : n * Second ≤ maxDuration) :
    secondsDuration n = n * 1000000000 := by
  unfold secondsDuration wrapInt64
  unfold Second maxDuration at *
  omega

/-- Adding a lifetime of `n` whole seconds moves `Unix()` by `n`. -/
theorem add_secondsDuration_unix (now : Time) (n : Int)
    (hnow : 0 ≤ now.nsec ∧ now.nsec < 1000000000)
    (hpos : 0 < n) (hfit : n * Second ≤ maxDuration) :
    (now.Add (secondsDuration n)).Unix = now.sec + n := by
  rw [secondsDuration_of_fit n hpos hfit]
  have hq : quoT (n * 1000000000) 1000000000 = n := by
    unfold quoT
    split <;> omega
  have hr : remT (n * 1000000000) 1000000000 = 0 := by
    unfold remT
    split <;> omega
  obtain ⟨h0, h1⟩ := hnow
  simp only [Time.Add, hq, hr, Time.Unix]
  split
  · omega
  · split
    · omega
    · rfl

/-- A claims hook that leaves the three timestamps alone passes them through
`shapeClaims`. -/
theorem shapeClaims_window {S : Type} (a : Auther S) (c : Context)
    (cl cl1 : UserClaims) (r : Int)
    (hhook : ∀ f, a.opts.claimsFunc = some f → ∀ c0 x y r0, f c0 x = Except.ok (y, r0) →
      y.IssuedAt = x.IssuedAt ∧ y.NotBefore = x.NotBefore ∧ y.ExpiresAt = x.ExpiresAt)
    (h : a.shapeClaims c cl = Except.ok (cl1, r)) :
    cl1.IssuedAt = cl.IssuedAt ∧ cl1.NotBefore = cl.NotBefore ∧
      cl1.ExpiresAt = cl.ExpiresAt := by
  unfold Auther.shapeClaims at h
  cases hf : a.opts.claimsFunc with
  | none =>
    rw [hf] at h
    simp only [Except.ok.injEq, Prod.mk.injEq] at h
    obtain ⟨h1, _⟩ := h
    subst h1
    exact ⟨rfl, rfl, rfl⟩
  | some f =>
    rw [hf] at h
    simp only at h
    cases hfc : f c cl with
    | error err => rw [hfc] at h; simp at h
    | ok p =>
      obtain ⟨y, r0⟩ := p
      rw [hfc] at h
      simp only at h
      have hy := hhook f hf c cl y r0 hfc
      split at h
      · simp only [Except.ok.injEq, Prod.mk.injEq] at h
        obtain ⟨h1, _⟩ := h
        subst h1
        exact hy
      · simp only [Except.ok.injEq, Prod.mk.injEq] at h
        obtain ⟨h1, _⟩ := h
        subst h1
        exact hy

/-- C7 (counterexample): three configurations under which successful calls
return claims outside the window `not-before ≤ issued-at < expires-at`: an
access lifetime of zero (`GenerateToken` and `RefreshToken` both return
`expires-at = issued-at`), an access lifetime of 9223372037 seconds, whose
product with `time.Second` wraps around in 64 bits, and a claims hook that
rewrites `ExpiresAt`. -/
theorem window_broken_by_configuration :
    ((lifetimeAuther 0).GenerateToken sampleExtern cleanWorld sampleNow
        Context.background sampleUser).1
      = Except.ok
          (⟨"u1", "jwt:u1", 1000, "refresh:u1", 605800⟩,
           ⟨"u1", 1000, 1000, 1000, [("name", "ann")]⟩) ∧
    ((lifetimeAuther 0).RefreshToken sampleExtern cleanWorld sampleNow
        Context.background "t" none).1
      = Except.ok
          (⟨"s1", "jwt:s1", 1000, "refresh:s1", 605800⟩,
           ⟨"s1", 1000, 1000, 1000, [("name", "ann")]⟩) ∧
    ((lifetimeAuther 9223372037).GenerateToken sampleExtern cleanWorld sampleNow
        Context.background sampleUser).1
      = Except.ok
          (⟨"u1", "jwt:u1", -9223371037, "refresh:u1", 605800⟩,
           ⟨"u1", 1000, 1000, -9223371037, [("name", "ann")]⟩) ∧
    (hookAuther.GenerateToken sampleExtern cleanWorld sampleNow
        Context.background sampleUser).1
      = Except.ok
          (⟨"u1", "jwt:u1", 0, "refresh:u1", 605800⟩,
           ⟨"u1", 1000, 1000, 0, [("name", "ann")]⟩) ∧
    ¬ ((1000 : Int) < 1000) ∧ ¬ ((1000 : Int) < -9223371037) ∧ ¬ ((1000 : Int) < 0) := by
  refine ⟨rfl, rfl, rfl, rfl, by decide, by decide, by decide⟩

/-- C7 (amended): for an access lifetime of at least one second whose
nanoseconds fit a `time.Duration`, and a claims hook (if any) that leaves the
three timestamps as it found them, the claims returned by a successful
`GenerateToken` and by a successful `RefreshToken` satisfy
`not-before ≤ issued-at < expires-at`. -/
theorem claims_validity_window {S : Type} (ext : Extern) (a : Auther S) (w : World S)
    (now : Time) (c : Context)
    (hnow : 0 ≤ now.nsec ∧ now.nsec < 1000000000)
    (hpos : 0 < a.opts.expired)
    (hfit : a.opts.expired * Second ≤ maxDuration)
    (hhook : ∀ f, a.opts.claimsFunc = some f → ∀ c0 x y r0, f c0 x = Except.ok (y, r0) →
      y.IssuedAt = x.IssuedAt ∧ y.NotBefore = x.NotBefore ∧ y.ExpiresAt = x.ExpiresAt) :
    (∀ user ti cl, (a.GenerateToken ext w now c user).1 = Except.ok (ti, cl) →
      cl.NotBefore ≤ cl.IssuedAt ∧ cl.IssuedAt < cl.ExpiresAt) ∧
    (∀ tkn chk ti cl, (a.RefreshToken ext w now c tkn chk).1 = Except.ok (ti, cl) →
      cl.NotBefore ≤ cl.IssuedAt ∧ cl.IssuedAt < cl.ExpiresAt) := by
  have hadd := add_secondsDuration_unix now a.opts.expired hnow hpos hfit
  constructor
  · intro user ti cl h
    simp only [Auther.GenerateToken] at h
    split at h
    · simp at h
    · rename_i cl1 refresh hshape
      have hw := shapeClaims_window a c _ cl1 refresh hhook hshape
      split at h
      · simp at h
      · simp only [Except.ok.injEq, Prod.mk.injEq] at h
        obtain ⟨_, hcl⟩ := h
        subst hcl
        obtain ⟨h1, h2, h3⟩ := hw
        simp only [Time.Unix] at h1 h2 h3 hadd
        omega
  · intro tkn chk ti cl h
    simp only [Auther.RefreshToken] at h
    split at h
    · simp at h
    · split at h
      · split at h <;> simp at h
      · split at h
        · simp at h
        · split at h
          · simp at h
          · split at h
            · simp at h
            · rename_i cl1 refresh hshape
              have hw := shapeClaims_window a c _ cl1 refresh hhook hshape
              simp only [Except.ok.injEq, Prod.mk.injEq] at h
              obtain ⟨_, hcl⟩ := h
              subst hcl
              obtain ⟨h1, h2, h3⟩ := hw
              simp only [Time.Unix] at h1 h2 h3 hadd
              omega

/-- C7 (witness): with the default lifetime of two hours, issuance and refresh
at second 1000 return the window `1000 ≤ 1000 < 8200`. -/
theorem claims_validity_window_witness :
    ((1000 : Int) ≤ 1000 ∧ (1000 : Int) < 8200) ∧
    ((1000 : Int) ≤ 1000 ∧ (1000 : Int) < 8200) :=
  ⟨(claims_validity_window sampleExtern sampleAuther cleanWorld sampleNow
      Context.background (by decide) (by decide) (by decide)
      (by intro f hf; cases hf)).1 sampleUser
      ⟨"u1", "jwt:u1", 8200, "refresh:u1", 605800⟩
      ⟨"u1", 1000, 1000, 8200, [("name", "ann")]⟩ rfl,
   (claims_validity_window sampleExtern sampleAuther cleanWorld sampleNow
      Context.background (by decide) (by decide) (by decide)
      (by intro f hf; cases hf)).2 "t" none
      ⟨"s1", "jwt:s1", 8200, "refresh:s1", 605800⟩
      ⟨"s1", 1000, 1000, 8200, [("name", "ann")]⟩ rfl⟩

/-! ## Revocation -/

/-- C8: `DestroyToken` writes the marker with the remaining lifetime. A value
that is not a `*UserClaims` is answered with `ErrInvalidToken` and the world is
left as it was; for a `*UserClaims` and a configured store the call is exactly
one `Set1` with key `"token:" + identifier` and the duration
`time.Unix(expires-at, 0).Sub(now)`, whose result is returned; that duration
is `expires-at - now` in nanoseconds, of either sign, whenever it fits a
`time.Duration`. -/
theorem destroyToken_writes_marker {S : Type} (a : Auther S) (w : World S) (now : Time)
    (c : Context) :
    (∀ id identity,
      a.DestroyToken w now c (UserInfo.foreign id identity)
        = (some Err.ErrInvalidToken, w)) ∧
    (∀ store claims, a.store = some store →
      a.DestroyToken w now c (UserInfo.claims claims)
        = ((store.Set1 w.state c ("token:" ++ claims.GetTokenID)
              ((unixTime claims.ExpiresAt).Sub now)).1,
           ⟨(store.Set1 w.state c ("token:" ++ claims.GetTokenID)
              ((unixTime claims.ExpiresAt).Sub now)).2,
            w.calls ++ [StoreCall.Set1 ("token:" ++ claims.GetTokenID)
              ((unixTime claims.ExpiresAt).Sub now)]⟩)) ∧
    (∀ e : Int, minDuration ≤ e * 1000000000 - now.nanos →
      e * 1000000000 - now.nanos ≤ maxDuration →
      (unixTime e).Sub now = e * 1000000000 - now.nanos) := by
  refine ⟨?_, ?_, ?_⟩
  · intro id identity
    rfl
  · intro store claims hstore
    simp [Auther.DestroyToken, Auther.callStore, hstore, storeSet1]
  · intro e hlo hhi
    simp only [Time.Sub, unixTime, Time.nanos] at *
    split
    · omega
    · split
      · omega
      · omega

/-- C8 (witness): at second 1000 the sample session has 6300 seconds left and
the stale session ran out 900 seconds ago; both writes are issued. -/
theorem destroyToken_writes_marker_witness :
    (sampleAuther.DestroyToken cleanWorld sampleNow Context.background
        (UserInfo.claims sampleClaims)).2.calls
      = [StoreCall.Set1 "token:s1" 6300000000000] ∧
    (sampleAuther.DestroyToken cleanWorld sampleNow Context.background
        (UserInfo.claims staleClaims)).2.calls
      = [StoreCall.Set1 "token:s0" (-900000000000)] ∧
    (unixTime 100).Sub sampleNow = 100 * 1000000000 - sampleNow.nanos :=
  ⟨congrArg (fun r => r.2.calls)
      ((destroyToken_writes_marker sampleAuther cleanWorld sampleNow
        Context.background).2.1 listStore sampleClaims rfl),
   congrArg (fun r => r.2.calls)
      ((destroyToken_writes_marker sampleAuther cleanWorld sampleNow
        Context.background).2.1 listStore staleClaims rfl),
   (destroyToken_writes_marker sampleAuther cleanWorld sampleNow
      Context.background).2.2 100 (by decide) (by decide)⟩

/-! ## Key resolution -/

/-- Applying options that leave `keyFunc` alone leaves `keyFunc` alone. -/
theorem foldl_keyFunc (opts : List AuthOption) (o : options)
    (hopts : ∀ opt ∈ opts, ∀ o0, (opt o0).keyFunc = o0.keyFunc) :
    (opts.foldl (fun o opt => opt o) o).keyFunc = o.keyFunc := by
  induction opts generalizing o with
  | nil => rfl
  | cons opt rest ih =>
    simp only [List.foldl_cons]
    rw [ih (opt o) (fun x hx => hopts x (List.mem_cons_of_mem _ hx))]
    exact hopts opt (List.mem_cons_self _ _) o

/-- Without `SetKeyFunc`, `New` keeps `KeyFuncCallback` as the key function. -/
theorem new_keyFunc {S : Type} (ext : Extern) (store : Option (Storer S))
    (opts : List AuthOption)
    (hopts : ∀ opt ∈ opts, ∀ o0, (opt o0).keyFunc = o0.keyFunc) :
    (New ext store opts).opts.keyFunc = some KeyFuncCallback := by
  simp only [New]
  split
  · simp only
    rw [foldl_keyFunc opts _ hopts]
  · rw [foldl_keyFunc opts _ hopts]

/-- C9: default key resolution pins the algorithm. `KeyFuncCallback` sets the
method of the token to the given method, whatever it was, leaves the rest of
the token alone and returns the given secret without error; an `Auther` built
by `New` from options none of which touches `keyFunc` resolves keys through
`KeyFuncCallback` with its configured method and secret, so the method of the
token after key resolution is the configured one for every inbound token. -/
theorem keyFunc_pins_method {S : Type} (ext : Extern) (store : Option (Storer S))
    (opts : List AuthOption)
    (hopts : ∀ opt ∈ opts, ∀ o0, (opt o0).keyFunc = o0.keyFunc)
    (c : Context) (token : Token) (m : SigningMethod) (s : Option Key) :
    ((KeyFuncCallback c token m s).1.Method = some m ∧
      (KeyFuncCallback c token m s).1.Raw = token.Raw ∧
      (KeyFuncCallback c token m s).1.Header = token.Header ∧
      (KeyFuncCallback c token m s).1.Claims = token.Claims ∧
      (KeyFuncCallback c token m s).2 = Except.ok s) ∧
    (New ext store opts).keyFunc c token
      = KeyFuncCallback c token (New ext store opts).opts.signingMethod
          (New ext store opts).opts.signingSecret ∧
    ((New ext store opts).keyFunc c token).1.Method
      = some (New ext store opts).opts.signingMethod ∧
    ((New ext store opts).keyFunc c token).2
      = Except.ok (New ext store opts).opts.signingSecret := by
  have hk := new_keyFunc ext store opts hopts
  have hcall : (New ext store opts).keyFunc c token
      = KeyFuncCallback c token (New ext store opts).opts.signingMethod
          (New ext store opts).opts.signingSecret := by
    simp only [Auther.keyFunc, hk]
  refine ⟨⟨rfl, rfl, rfl, rfl, rfl⟩, hcall, ?_, ?_⟩
  · rw [hcall]; rfl
  · rw [hcall]; rfl

/-- C9 (witness): a token declaring `alg: none`, resolved by an `Auther`
configured for HS256 with secret `k`, comes back with method HS256 and the
key `k`. -/
theorem keyFunc_pins_method_witness :
    (pinnedAuther.keyFunc Context.background noneToken).1.Method = some ⟨"HS256"⟩ ∧
    (pinnedAuther.keyFunc Context.background noneToken).2
      = Except.ok (some (Key.bytes "k")) :=
  ⟨(keyFunc_pins_method sampleExtern none
      [SetExpired 60, SetSigningSecret "k", SetSigningMethod ⟨"HS256"⟩]
      (by
        intro opt h o0
        simp only [List.mem_cons, List.mem_singleton, List.not_mem_nil, or_false] at h
        rcases h with h | h | h <;> subst h <;> rfl)
      Context.background noneToken ⟨"HS256"⟩ none).2.2.1,
   (keyFunc_pins_method sampleExtern none
      [SetExpired 60, SetSigningSecret "k", SetSigningMethod ⟨"HS256"⟩]
      (by
        intro opt h o0
        simp only [List.mem_cons, List.mem_singleton, List.not_mem_nil, or_false] at h
        rcases h with h | h | h <;> subst h <;> rfl)
      Context.background noneToken ⟨"HS256"⟩ none).2.2.2⟩

/-! ## Issue, then validate -/

/-- C10 (counterexample): a signing strategy that returns the empty string and
an access parsing strategy that maps the empty string back to the signed
claims, with no store. `GenerateToken` succeeds with an empty `AccessToken`;
`GetUserInfo` on it treats the empty string as "no token given", asks the
extraction strategy and fails with `ErrNoneToken`. -/
theorem round_trip_fails_on_empty_token :
    (emptySignAuther.GenerateToken sampleExtern cleanWorld sampleNow
        Context.background sampleUser).1
      = Except.ok
          (⟨"u1", "", 8200, "refresh:u1", 605800⟩,
           ⟨"u1", 1000, 1000, 8200, [("name", "ann")]⟩) ∧
    emptySignAuther.parse sampleExtern emptySignAuther.opts.parseClaimsFunc
        Context.background ""
      = Except.ok ⟨"u1", 1000, 1000, 8200, [("name", "ann")]⟩ ∧
    emptySignAuther.store.isNone = true ∧
    (emptySignAuther.GetUserInfo sampleExtern cleanWorld Context.background "").1
      = Except.error Err.ErrNoneToken := by
  refine ⟨rfl, rfl, rfl, rfl⟩

/-- C10 (amended): issue, then validate. If `GenerateToken` succeeds with a
non-empty `AccessToken`, the access parsing strategy maps that string back to
the claims `GenerateToken` returned, and the store is absent or reports the
key of their identifier absent, then `GetUserInfo` on the `AccessToken`
returns exactly those claims; their identity payload is the one `NewUserInfo`
built from the input when no claims hook is configured. -/
theorem generate_then_getUserInfo {S : Type} (ext : Extern) (a : Auther S)
    (w w1 : World S) (now : Time) (c c1 : Context) (user : UserInfo)
    (ti : TokenInfo) (cl : UserClaims)
    (hgen : a.GenerateToken ext w now c user = (Except.ok (ti, cl), w1))
    (hne : ti.AccessToken ≠ "")
    (hinv : a.parse ext a.opts.parseClaimsFunc c1 ti.AccessToken = Except.ok cl)
    (hstore : ∀ store, a.store = some store →
      (store.Check w1.state c1 ("token:" ++ cl.GetTokenID)).1 = Except.ok false) :
    (a.GetUserInfo ext w1 c1 ti.AccessToken).1 = Except.ok cl ∧
    (a.opts.claimsFunc = none → cl.identity = (ext.NewUserInfo user).identity) := by
  constructor
  · have hraw : a.rawToken c1 ti.AccessToken = Except.ok ti.AccessToken := by
      simp [Auther.rawToken, hne]
    cases hs : a.store with
    | none =>
      simp [Auther.GetUserInfo, hraw, hinv, Auther.callStore, hs]
    | some store =>
      have hchk := hstore store hs
      simp [Auther.GetUserInfo, hraw, hinv, Auther.callStore, hs, reverseCheck,
        storeCheck, hchk]
  · intro hnone
    simp only [Auther.GenerateToken, Auther.shapeClaims, hnone] at hgen
    split at hgen
    · simp at hgen
    · simp only [Prod.mk.injEq, Except.ok.injEq] at hgen
      obtain ⟨⟨_, hcl⟩, _⟩ := hgen
      subst hcl
      rfl

/-- C10 (witness): the token issued for `sampleUser` at second 1000 validates
to the claims that were issued, which carry the identity of `sampleUser`. -/
theorem generate_then_getUserInfo_witness :
    (roundTripAuther.GetUserInfo sampleExtern cleanWorld Context.background "jwt:u1").1
      = Except.ok ⟨"u1", 1000, 1000, 8200, [("name", "ann")]⟩ ∧
    (⟨"u1", 1000, 1000, 8200, [("name", "ann")]⟩ : UserClaims).identity
      = (sampleExtern.NewUserInfo sampleUser).identity :=
  ⟨(generate_then_getUserInfo sampleExtern roundTripAuther cleanWorld cleanWorld
      sampleNow Context.background Context.background sampleUser
      ⟨"u1", "jwt:u1", 8200, "refresh:u1", 605800⟩
      ⟨"u1", 1000, 1000, 8200, [("name", "ann")]⟩ rfl (by decide) rfl
      (by intro store h; cases h; rfl)).1,
   (generate_then_getUserInfo sampleExtern roundTripAuther cleanWorld cleanWorld
      sampleNow Context.background Context.background sampleUser
      ⟨"u1", "jwt:u1", 8200, "refresh:u1", 605800⟩
      ⟨"u1", 1000, 1000, 8200, [("name", "ann")]⟩ rfl (by decide) rfl
      (by intro store h; cases h; rfl)).2 rfl⟩

/-! ## Issuance -/

/-- Adding a lifetime of `n` whole seconds, of either sign, whose nanoseconds
fit a `time.Duration` moves `Unix()` by `n`. -/
theorem add_secondsDuration_unix_of_fit (now : Time) (n : Int)
    (hnow : 0 ≤ now.nsec ∧ now.nsec < 1000000000)
    (hlo : minDuration ≤ n * Second) (hhi : n * Second ≤ maxDuration) :
    (now.Add (secondsDuration n)).Unix = now.Unix + n := by
  have hd : secondsDuration n = n * 1000000000 := by
    unfold secondsDuration wrapInt64
    unfold Second maxDuration minDuration at *
    omega
  rw [hd]
  have hq : quoT (n * 1000000000) 1000000000 = n := by
    unfold quoT
    split <;> omega
  have hr : remT (n * 1000000000) 1000000000 = 0 := by
    unfold remT
    split <;> omega
  obtain ⟨h0, h1⟩ := hnow
  simp only [Time.Add, hq, hr, Time.Unix]
  split
  · omega
  · split
    · omega
    · rfl

/-- C11 (counterexample): a refresh lifetime of 9223372037 seconds, configured
or returned by the claims hook, wraps around in `time.Duration(refresh) *
time.Second`; at second 1000 the result carries `RefreshExpAt = -9223371037`,
not `1000 + 9223372037`. -/
theorem refresh_expiry_wraps :
    ((refreshAuther 9223372037).GenerateToken sampleExtern cleanWorld sampleNow
        Context.background sampleUser).1
      = Except.ok
          (⟨"u1", "jwt:u1", 8200, "refresh:u1", -9223371037⟩,
           ⟨"u1", 1000, 1000, 8200, [("name", "ann")]⟩) ∧
    ((refreshHookAuther 9223372037).GenerateToken sampleExtern cleanWorld sampleNow
        Context.background sampleUser).1
      = Except.ok
          (⟨"u1", "jwt:u1", 8200, "refresh:u1", -9223371037⟩,
           ⟨"u1", 1000, 1000, 8200, [("name", "ann")]⟩) ∧
    (-9223371037 : Int) ≠ sampleNow.Unix + 9223372037 := by
  refine ⟨rfl, rfl, by decide⟩

/-- The shape of `GenerateToken` in terms of `stamp` and `shapeClaims`. -/
theorem generateToken_eq {S : Type} (ext : Extern) (a : Auther S) (w : World S)
    (now : Time) (c : Context) (user : UserInfo) :
    a.GenerateToken ext w now c user =
      match a.shapeClaims c (a.stamp now (ext.NewUserInfo user)) with
      | Except.error err => (Except.error err, w)
      | Except.ok (claims, refresh) =>
        match a.opts.signingFunc c claims a.opts.signingMethod a.opts.signingSecret with
        | Except.error err => (Except.error err, w)
        | Except.ok tokenString =>
          (Except.ok
            (⟨claims.Id, tokenString, claims.ExpiresAt, ext.NewRefreshToken claims.Id,
              (now.Add (secondsDuration refresh)).Unix⟩, claims), w) :=
  rfl

/-- Once the hook has settled the claims and the refresh lifetime, a
successful `GenerateToken` returns those claims and a refresh expiry that lies
the refresh lifetime after `now`. -/
theorem generateToken_of_shape {S : Type} (ext : Extern) (a : Auther S) (w : World S)
    (now : Time) (c : Context) (user : UserInfo) (cl1 : UserClaims) (refresh : Int)
    (ti : TokenInfo) (cl : UserClaims)
    (hshape : a.shapeClaims c (a.stamp now (ext.NewUserInfo user))
      = Except.ok (cl1, refresh))
    (h : (a.GenerateToken ext w now c user).1 = Except.ok (ti, cl)) :
    cl = cl1 ∧ ti.TokenID = cl1.Id ∧ ti.ExpiresAt = cl1.ExpiresAt ∧
      ti.RefreshToken = ext.NewRefreshToken cl1.Id ∧
      ti.RefreshExpAt = (now.Add (secondsDuration refresh)).Unix ∧
      a.opts.signingFunc c cl1 a.opts.signingMethod a.opts.signingSecret
        = Except.ok ti.AccessToken := by
  rw [generateToken_eq, hshape] at h
  simp only at h
  split at h
  · simp at h
  · rename_i str hsign
    simp only [Except.ok.injEq, Prod.mk.injEq] at h
    obtain ⟨hti, hcl⟩ := h
    subst hti
    subst hcl
    exact ⟨rfl, rfl, rfl, rfl, rfl, hsign⟩

/-- C11 (amended): the refresh expiry at issuance. For a `GenerateToken` call
at `now` with configured refresh lifetime `R`: when no hook is configured, or
the hook returns a value `≤ 0`, and `R` seconds fit a `time.Duration`, a
successful call returns `RefreshExpAt = now + R`; when the hook returns
`r > 0` and `r` seconds fit a `time.Duration`, it returns
`RefreshExpAt = now + r`; when the hook returns an error, `GenerateToken`
returns that error and no token result, whatever the signing strategy is. -/
theorem generateToken_refresh_expiry {S : Type} (ext : Extern) (a : Auther S)
    (w : World S) (now : Time) (c : Context) (user : UserInfo)
    (hnow : 0 ≤ now.nsec ∧ now.nsec < 1000000000) :
    (a.opts.claimsFunc = none →
      minDuration ≤ a.opts.refresh * Second → a.opts.refresh * Second ≤ maxDuration →
      ∀ ti cl, (a.GenerateToken ext w now c user).1 = Except.ok (ti, cl) →
        ti.RefreshExpAt = now.Unix + a.opts.refresh) ∧
    (∀ f cl1 r, a.opts.claimsFunc = some f →
      f c (a.stamp now (ext.NewUserInfo user)) = Except.ok (cl1, r) → r ≤ 0 →
      minDuration ≤ a.opts.refresh * Second → a.opts.refresh * Second ≤ maxDuration →
      ∀ ti cl, (a.GenerateToken ext w now c user).1 = Except.ok (ti, cl) →
        ti.RefreshExpAt = now.Unix + a.opts.refresh) ∧
    (∀ f cl1 r, a.opts.claimsFunc = some f →
      f c (a.stamp now (ext.NewUserInfo user)) = Except.ok (cl1, r) → 0 < r →
      r * Second ≤ maxDuration →
      ∀ ti cl, (a.GenerateToken ext w now c user).1 = Except.ok (ti, cl) →
        ti.RefreshExpAt = now.Unix + r) ∧
    (∀ f e, a.opts.claimsFunc = some f →
      f c (a.stamp now (ext.NewUserInfo user)) = Except.error e →
      a.GenerateToken ext w now c user = (Except.error e, w) ∧
      ∀ sf, Auther.GenerateToken ext
          { a with opts := { a.opts with signingFunc := sf } } w now c user
        = (Except.error e, w)) := by
  refine ⟨?_, ?_, ?_, ?_⟩
  · intro hnone hlo hhi ti cl h
    have hshape : a.shapeClaims c (a.stamp now (ext.NewUserInfo user))
        = Except.ok (a.stamp now (ext.NewUserInfo user), a.opts.refresh) := by
      simp [Auther.shapeClaims, hnone]
    have hres := generateToken_of_shape ext a w now c user _ _ ti cl hshape h
    rw [hres.2.2.2.2.1]
    exact add_secondsDuration_unix_of_fit now _ hnow hlo hhi
  · intro f cl1 r hf hfc hr hlo hhi ti cl h
    have hshape : a.shapeClaims c (a.stamp now (ext.NewUserInfo user))
        = Except.ok (cl1, a.opts.refresh) := by
      have hnot : ¬ (r > 0) := by omega
      simp [Auther.shapeClaims, hf, hfc, hnot]
    have hres := generateToken_of_shape ext a w now c user _ _ ti cl hshape h
    rw [hres.2.2.2.2.1]
    exact add_secondsDuration_unix_of_fit now _ hnow hlo hhi
  · intro f cl1 r hf hfc hr hhi ti cl h
    have hshape : a.shapeClaims c (a.stamp now (ext.NewUserInfo user))
        = Except.ok (cl1, r) := by
      have hpos : r > 0 := hr
      simp [Auther.shapeClaims, hf, hfc, hpos]
    have hres := generateToken_of_shape ext a w now c user _ _ ti cl hshape h
    rw [hres.2.2.2.2.1]
    have hlo : minDuration ≤ r * Second := by
      unfold minDuration Second
      omega
    exact add_secondsDuration_unix_of_fit now _ hnow hlo hhi
  · intro f e hf hfc
    constructor
    · have hshape : a.shapeClaims c (a.stamp now (ext.NewUserInfo user))
          = Except.error e := by
        simp [Auther.shapeClaims, hf, hfc]
      rw [generateToken_eq, hshape]
    · intro sf
      have hshape : Auther.shapeClaims
          { a with opts := { a.opts with signingFunc := sf } } c
          (a.stamp now (ext.NewUserInfo user)) = Except.error e := by
        simp [Auther.shapeClaims, hf, hfc]
      rw [generateToken_eq]
      have hstamp : Auther.stamp { a with opts := { a.opts with signingFunc := sf } }
          now (ext.NewUserInfo user) = a.stamp now (ext.NewUserInfo user) := rfl
      rw [hstamp, hshape]

/-- C11 (witness): at second 1000 with the default refresh lifetime of seven
days, no hook and a hook returning 0 give `RefreshExpAt = 605800`, a hook
returning 60 gives `1060`, and a failing hook makes `GenerateToken` fail with
the error of the hook. -/
theorem generateToken_refresh_expiry_witness :
    (605800 : Int) = sampleNow.Unix + 604800 ∧
    (605800 : Int) = sampleNow.Unix + 604800 ∧
    (1060 : Int) = sampleNow.Unix + 60 ∧
    failingHookAuther.GenerateToken sampleExtern cleanWorld sampleNow
        Context.background sampleUser
      = (Except.error (Err.other "hook refused"), cleanWorld) :=
  ⟨(generateToken_refresh_expiry sampleExtern sampleAuther cleanWorld sampleNow
      Context.background sampleUser (by decide)).1 rfl (by decide) (by decide)
      ⟨"u1", "jwt:u1", 8200, "refresh:u1", 605800⟩
      ⟨"u1", 1000, 1000, 8200, [("name", "ann")]⟩ rfl,
   (generateToken_refresh_expiry sampleExtern (refreshHookAuther 0) cleanWorld
      sampleNow Context.background sampleUser (by decide)).2.1
      (fun _ cl => Except.ok (cl, 0)) ⟨"u1", 1000, 1000, 8200, [("name", "ann")]⟩ 0
      rfl rfl (by decide) (by decide) (by decide)
      ⟨"u1", "jwt:u1", 8200, "refresh:u1", 605800⟩
      ⟨"u1", 1000, 1000, 8200, [("name", "ann")]⟩ rfl,
   (generateToken_refresh_expiry sampleExtern (refreshHookAuther 60) cleanWorld
      sampleNow Context.background sampleUser (by decide)).2.2.1
      (fun _ cl => Except.ok (cl, 60)) ⟨"u1", 1000, 1000, 8200, [("name", "ann")]⟩ 60
      rfl rfl (by decide) (by decide)
      ⟨"u1", "jwt:u1", 8200, "refresh:u1", 1060⟩
      ⟨"u1", 1000, 1000, 8200, [("name", "ann")]⟩ rfl,
   ((generateToken_refresh_expiry sampleExtern failingHookAuther cleanWorld
      sampleNow Context.background sampleUser (by decide)).2.2.2
      (fun _ _ => Except.error (Err.other "hook refused")) (Err.other "hook refused")
      rfl rfl).1⟩

/-- C12 (counterexample): with no hook and an access lifetime of 9223372037
seconds, `time.Duration(expired) * time.Second` wraps around; issuance at
second 1000 stamps `expires-at = -9223371037`, not `1000 + 9223372037`. -/
theorem issuance_expiry_wraps :
    (lifetimeAuther 9223372037).opts.claimsFunc.isNone = true ∧
    (lifetimeAuther 9223372037).opts.expired = 9223372037 ∧
    (((lifetimeAuther 9223372037).GenerateToken sampleExtern cleanWorld sampleNow
        Context.background sampleUser).1.map (fun r => r.2.ExpiresAt))
      = Except.ok (-9223371037) ∧
    (-9223371037 : Int) ≠ sampleNow.Unix + 9223372037 := by
  refine ⟨rfl, rfl, rfl, by decide⟩

/-- C12 (amended): issuance stamps the validity window. With no claims hook
and an access lifetime `L` whose seconds fit a `time.Duration`, the claims a
successful `GenerateToken` returns at `now` are those of `NewUserInfo` with
`issued-at = not-before = now` and `expires-at = now + L`; the token result
has the identifier and the expiry of the claims and the string the signing
strategy produced for them; and the call succeeds whenever the signing
strategy does. -/
theorem generateToken_stamps_window {S : Type} (ext : Extern) (a : Auther S)
    (w : World S) (now : Time) (c : Context) (user : UserInfo)
    (hnow : 0 ≤ now.nsec ∧ now.nsec < 1000000000)
    (hnone : a.opts.claimsFunc = none)
    (hlo : minDuration ≤ a.opts.expired * Second)
    (hhi : a.opts.expired * Second ≤ maxDuration) :
    (∀ ti cl, (a.GenerateToken ext w now c user).1 = Except.ok (ti, cl) →
      cl.IssuedAt = now.Unix ∧ cl.NotBefore = now.Unix ∧
      cl.ExpiresAt = now.Unix + a.opts.expired ∧
      cl.Id = (ext.NewUserInfo user).Id ∧
      cl.identity = (ext.NewUserInfo user).identity ∧
      ti.TokenID = cl.Id ∧ ti.ExpiresAt = cl.ExpiresAt ∧
      a.opts.signingFunc c cl a.opts.signingMethod a.opts.signingSecret
        = Except.ok ti.AccessToken) ∧
    (∀ str, a.opts.signingFunc c (a.stamp now (ext.NewUserInfo user))
        a.opts.signingMethod a.opts.signingSecret = Except.ok str →
      ∃ ti, a.GenerateToken ext w now c user
          = (Except.ok (ti, a.stamp now (ext.NewUserInfo user)), w) ∧
        ti.AccessToken = str) := by
  have hshape : a.shapeClaims c (a.stamp now (ext.NewUserInfo user))
      = Except.ok (a.stamp now (ext.NewUserInfo user), a.opts.refresh) := by
    simp [Auther.shapeClaims, hnone]
  have hadd := add_secondsDuration_unix_of_fit now a.opts.expired hnow hlo hhi
  constructor
  · intro ti cl h
    obtain ⟨hcl, hid, hexp, _, _, hsign⟩ :=
      generateToken_of_shape ext a w now c user _ _ ti cl hshape h
    subst hcl
    exact ⟨rfl, rfl, hadd, rfl, rfl, hid, hexp, hsign⟩
  · intro str hsign
    rw [generateToken_eq, hshape]
    simp only [hsign]
    exact ⟨_, rfl, rfl⟩

/-- C12 (witness): issuance for `sampleUser` at second 1000 with the default
lifetime of two hours. -/
theorem generateToken_stamps_window_witness :
    (1000 : Int) = sampleNow.Unix ∧ (8200 : Int) = sampleNow.Unix + 7200 ∧
    (∃ ti, sampleAuther.GenerateToken sampleExtern cleanWorld sampleNow
        Context.background sampleUser
          = (Except.ok (ti, ⟨"u1", 1000, 1000, 8200, [("name", "ann")]⟩), cleanWorld) ∧
        ti.AccessToken = "jwt:u1") :=
  ⟨((generateToken_stamps_window sampleExtern sampleAuther cleanWorld sampleNow
      Context.background sampleUser (by decide) rfl (by decide) (by decide)).1
      ⟨"u1", "jwt:u1", 8200, "refresh:u1", 605800⟩
      ⟨"u1", 1000, 1000, 8200, [("name", "ann")]⟩ rfl).1,
   ((generateToken_stamps_window sampleExtern sampleAuther cleanWorld sampleNow
      Context.background sampleUser (by decide) rfl (by decide) (by decide)).1
      ⟨"u1", "jwt:u1", 8200, "refresh:u1", 605800⟩
      ⟨"u1", 1000, 1000, 8200, [("name", "ann")]⟩ rfl).2.2.1,
   (generateToken_stamps_window sampleExtern sampleAuther cleanWorld sampleNow
      Context.background sampleUser (by decide) rfl (by decide) (by decide)).2
      "jwt:u1" rfl⟩

/-! ## Refresh -/

/-- C13 (counterexample): with no hook and an access lifetime of 9223372037
seconds, a successful refresh at second 1000 stamps
`expires-at = -9223371037`, not `1000 + 9223372037`. -/
theorem refresh_expiry_wraps_access :
    (lifetimeAuther 9223372037).opts.claimsFunc.isNone = true ∧
    ((lifetimeAuther 9223372037).RefreshToken sampleExtern cleanWorld sampleNow
        Context.background "t" none).1
      = Except.ok
          (⟨"s1", "jwt:s1", -9223371037, "refresh:s1", 605800⟩,
           ⟨"s1", 1000, 1000, -9223371037, [("name", "ann")]⟩) ∧
    (-9223371037 : Int) ≠ sampleNow.Unix + 9223372037 := by
  refine ⟨rfl, rfl, by decide⟩

/-- C13 (amended): refresh preserves identity and identifier. With no claims
hook and an access lifetime `L` whose seconds fit a `time.Duration`, the
claims a successful `RefreshToken` returns at `now` have the identifier and the
identity of the claims parsed from the raw token, with
`issued-at = not-before = now` and `expires-at = now + L`; the token result
has that identifier and `ExpiresAt = now + L`; and the call succeeds whenever
the external check passes and the signing strategy succeeds. -/
theorem refreshToken_preserves_identity {S : Type} (ext : Extern) (a : Auther S)
    (w : World S) (now : Time) (c : Context) (tkn raw : String)
    (chk : Option (UserClaims → Int → Option Err)) (parsed : UserClaims)
    (hnow : 0 ≤ now.nsec ∧ now.nsec < 1000000000)
    (hnone : a.opts.claimsFunc = none)
    (hlo : minDuration ≤ a.opts.expired * Second)
    (hhi : a.opts.expired * Second ≤ maxDuration)
    (hraw : a.rawToken c tkn = Except.ok raw)
    (hparse : a.parse ext a.opts.parseRefreshFunc c raw = Except.ok parsed) :
    (∀ ti cl, (a.RefreshToken ext w now c tkn chk).1 = Except.ok (ti, cl) →
      cl.Id = parsed.Id ∧ cl.identity = parsed.identity ∧
      cl.IssuedAt = now.Unix ∧ cl.NotBefore = now.Unix ∧
      cl.ExpiresAt = now.Unix + a.opts.expired ∧
      ti.TokenID = parsed.Id ∧ ti.ExpiresAt = now.Unix + a.opts.expired) ∧
    (∀ str, (∀ f, chk = some f → f parsed a.opts.refresh = none) →
      a.opts.signingFunc c (a.stamp now parsed) a.opts.signingMethod
        a.opts.signingSecret = Except.ok str →
      ∃ ti, (a.RefreshToken ext w now c tkn chk).1
          = Except.ok (ti, a.stamp now parsed) ∧ ti.AccessToken = str) := by
  have hshape : ∀ x, a.shapeClaims c x = Except.ok (x, a.opts.refresh) := by
    intro x
    simp [Auther.shapeClaims, hnone]
  have hadd := add_secondsDuration_unix_of_fit now a.opts.expired hnow hlo hhi
  constructor
  · intro ti cl h
    simp only [Auther.RefreshToken, hraw, hparse, hshape] at h
    split at h
    · simp at h
    · split at h
      · simp at h
      · simp only [Except.ok.injEq, Prod.mk.injEq] at h
        obtain ⟨hti, hcl⟩ := h
        subst hti
        subst hcl
        exact ⟨rfl, rfl, rfl, rfl, hadd, rfl, hadd⟩
  · intro str hchk hsign
    have hsign1 : a.opts.signingFunc c
        { parsed with
          IssuedAt := now.Unix,
          NotBefore := now.Unix,
          ExpiresAt := (now.Add (secondsDuration a.opts.expired)).Unix }
        a.opts.signingMethod a.opts.signingSecret = Except.ok str := hsign
    cases hc : chk with
    | none =>
      simp only [Auther.RefreshToken, hraw, hparse, hshape, hsign1]
      exact ⟨_, rfl, rfl⟩
    | some f =>
      have hf := hchk f hc
      simp only [Auther.RefreshToken, hraw, hparse, hshape, hsign1, hf]
      exact ⟨_, rfl, rfl⟩

/-- C13 (witness): refreshing the sample session at second 1000 keeps its
identifier `s1` and its identity and moves the window to `1000 .. 8200`. -/
theorem refreshToken_preserves_identity_witness :
    ("s1" = sampleClaims.Id ∧ [("name", "ann")] = sampleClaims.identity ∧
      (1000 : Int) = sampleNow.Unix ∧ (1000 : Int) = sampleNow.Unix ∧
      (8200 : Int) = sampleNow.Unix + 7200 ∧
      "s1" = sampleClaims.Id ∧ (8200 : Int) = sampleNow.Unix + 7200) ∧
    (∃ ti, (sampleAuther.RefreshToken sampleExtern cleanWorld sampleNow
        Context.background "t" none).1
          = Except.ok (ti, ⟨"s1", 1000, 1000, 8200, [("name", "ann")]⟩) ∧
        ti.AccessToken = "jwt:s1") :=
  ⟨(refreshToken_preserves_identity sampleExtern sampleAuther cleanWorld sampleNow
      Context.background "t" "t" none sampleClaims (by decide) rfl (by decide)
      (by decide) rfl rfl).1
      ⟨"s1", "jwt:s1", 8200, "refresh:s1", 605800⟩
      ⟨"s1", 1000, 1000, 8200, [("name", "ann")]⟩ rfl,
   (refreshToken_preserves_identity sampleExtern sampleAuther cleanWorld sampleNow
      Context.background "t" "t" none sampleClaims (by decide) rfl (by decide)
      (by decide) rfl rfl).2 "jwt:s1" (by intro f h; cases h) rfl⟩

/-! ## Missing tokens -/

/-- When the extraction strategy fails, `GetUserInfo` and `RefreshToken`
called with an empty token return its error and leave the world alone. -/
theorem empty_token_extraction_failure {S : Type} (ext : Extern) (a : Auther S)
    (w : World S) (now : Time) (c : Context)
    (chk : Option (UserClaims → Int → Option Err)) (e : Err)
    (h : a.opts.tokenFunc c = Except.error e) :
    a.GetUserInfo ext w c "" = (Except.error e, w) ∧
    a.RefreshToken ext w now c "" chk = (Except.error e, w) := by
  constructor
  · simp [Auther.GetUserInfo, Auther.rawToken, h]
  · simp [Auther.RefreshToken, Auther.rawToken, h]

/-- `GetBearerToken` reports `ErrNoneToken` outside a request and for a header
that does not start with the bearer marker. -/
theorem getBearerToken_none (ctx : Context)
    (h : ctx = Context.background ∨ ∃ getHeader, ctx = Context.request getHeader ∧
      "Bearer ".toList.isPrefixOf (getHeader "Authorization").toList = false) :
    GetBearerToken ctx = Except.error Err.ErrNoneToken := by
  rcases h with h | ⟨getHeader, h, hp⟩
  · subst h
    rfl
  · subst h
    simp only [GetBearerToken, hp, Bool.false_eq_true, and_false, ite_false]

/-- C14 (evaluation at the failing input): for the header `Authorization:
Bearer ` with no token text behind the marker, `GetBearerToken` returns the
empty string and no error. `GetUserInfo` and `RefreshToken`, called with an
empty token, then hand the empty string to the parsing strategy: with the
default strategy the answer is `ErrInvalidToken`, and with a strategy that
accepts every string the calls succeed. None of them fails with
`ErrNoneToken`, as they do outside a request, without the header, or with a
header of another scheme. -/
theorem bearer_marker_without_token :
    GetBearerToken bearerOnlyContext = Except.ok "" ∧
    (defaultAuther.GetUserInfo sampleExtern cleanWorld bearerOnlyContext "").1
      = Except.error Err.ErrInvalidToken ∧
    (defaultAuther.RefreshToken sampleExtern cleanWorld sampleNow bearerOnlyContext
        "" none).1 = Except.error Err.ErrInvalidToken ∧
    (sampleAuther.GetUserInfo sampleExtern cleanWorld bearerOnlyContext "").1
      = Except.ok sampleClaims ∧
    (sampleAuther.RefreshToken sampleExtern cleanWorld sampleNow bearerOnlyContext
        "" none).1
      = Except.ok
          (⟨"s1", "jwt:s1", 8200, "refresh:s1", 605800⟩,
           ⟨"s1", 1000, 1000, 8200, [("name", "ann")]⟩) ∧
    (sampleAuther.GetUserInfo sampleExtern cleanWorld Context.background "").1
      = Except.error Err.ErrNoneToken ∧
    (sampleAuther.GetUserInfo sampleExtern cleanWorld bareContext "").1
      = Except.error Err.ErrNoneToken ∧
    (sampleAuther.GetUserInfo sampleExtern cleanWorld basicContext "").1
      = Except.error Err.ErrNoneToken := by
  refine ⟨rfl, rfl, rfl, rfl, rfl, rfl, rfl, rfl⟩

/-- C15: refresh maps validation failures uniformly. When the refresh parsing
strategy fails with `e`, `RefreshToken` returns no token result and leaves the
world as it was (no store call); the error is `ErrInvalidToken` when `e` is or
wraps a validation error, whatever its flags, and `e` itself otherwise; and
the outcome is the same for every external check and every signing
strategy. -/
theorem refreshToken_parse_failure {S : Type} (ext : Extern) (a : Auther S)
    (w : World S) (now : Time) (c : Context) (tkn raw : String)
    (chk : Option (UserClaims → Int → Option Err)) (e : Err)
    (hraw : a.rawToken c tkn = Except.ok raw)
    (hparse : a.parse ext a.opts.parseRefreshFunc c raw = Except.error e) :
    (e.asValidation = true →
      a.RefreshToken ext w now c tkn chk = (Except.error Err.ErrInvalidToken, w)) ∧
    (∀ flags, e = Err.validation flags →
      a.RefreshToken ext w now c tkn chk = (Except.error Err.ErrInvalidToken, w)) ∧
    (e.asValidation = false →
      a.RefreshToken ext w now c tkn chk = (Except.error e, w)) ∧
    (∀ sf chk1, Auther.RefreshToken ext
        { a with opts := { a.opts with signingFunc := sf } } w now c tkn chk1
      = a.RefreshToken ext w now c tkn chk) := by
  have hval : e.asValidation = true →
      a.RefreshToken ext w now c tkn chk = (Except.error Err.ErrInvalidToken, w) := by
    intro hv
    simp [Auther.RefreshToken, hraw, hparse, hv]
  refine ⟨hval, ?_, ?_, ?_⟩
  · intro flags he
    apply hval
    subst he
    rfl
  · intro hv
    simp [Auther.RefreshToken, hraw, hparse, hv]
  · intro sf chk1
    have hraw1 : Auther.rawToken { a with opts := { a.opts with signingFunc := sf } }
        c tkn = Except.ok raw := hraw
    have hparse1 : Auther.parse ext { a with opts := { a.opts with signingFunc := sf } }
        a.opts.parseRefreshFunc c raw = Except.error e := by
      rw [← hparse]
      cases a.opts.parseRefreshFunc <;> rfl
    cases hv : e.asValidation
    · simp [Auther.RefreshToken, hraw, hparse, hraw1, hparse1, hv]
    · simp [Auther.RefreshToken, hraw, hparse, hraw1, hparse1, hv]

/-- C15 (witness): an expired refresh token, an error wrapping a signature
failure, and a parse failure that is no validation error; the world, in which
the identifier is marked, records no store call. -/
theorem refreshToken_parse_failure_witness :
    (rejectingAuther (Err.validation 16)).RefreshToken sampleExtern revokedWorld
        sampleNow Context.background "t" none
      = (Except.error Err.ErrInvalidToken, revokedWorld) ∧
    (rejectingAuther (Err.wrap "parse" (Err.validation 4))).RefreshToken sampleExtern
        revokedWorld sampleNow Context.background "t" none
      = (Except.error Err.ErrInvalidToken, revokedWorld) ∧
    (rejectingAuther (Err.other "decode")).RefreshToken sampleExtern revokedWorld
        sampleNow Context.background "t" none
      = (Except.error (Err.other "decode"), revokedWorld) :=
  ⟨(refreshToken_parse_failure sampleExtern (rejectingAuther (Err.validation 16))
      revokedWorld sampleNow Context.background "t" "t" none (Err.validation 16)
      rfl rfl).2.1 16 rfl,
   (refreshToken_parse_failure sampleExtern
      (rejectingAuther (Err.wrap "parse" (Err.validation 4)))
      revokedWorld sampleNow Context.background "t" "t" none
      (Err.wrap "parse" (Err.validation 4)) rfl rfl).1 rfl,
   (refreshToken_parse_failure sampleExtern (rejectingAuther (Err.other "decode"))
      revokedWorld sampleNow Context.background "t" "t" none (Err.other "decode")
      rfl rfl).2.2.1 rfl⟩

/-! ## Idempotence of revocation -/

/-- C16 (counterexample): in `failingStore` no write is successful, so every
successful write makes its key exist; the sample session expires after second
1000; yet `DestroyToken` returns the error of the write, and `GetUserInfo`
afterwards returns the error of the check, not `ErrExpiredToken`. -/
theorem revoke_fails_when_write_fails :
    (∀ (s : Unit) (c0 c2 : Context) (key : String) (ttl : Int),
      (failingStore.Set1 s c0 key ttl).1 = none →
      (failingStore.Check (failingStore.Set1 s c0 key ttl).2 c2 key).1
        = Except.ok true) ∧
    sampleNow.Unix < sampleClaims.ExpiresAt ∧
    (failingAuther.DestroyToken ⟨(), []⟩ sampleNow Context.background
        (UserInfo.claims sampleClaims)).1 = some (Err.other "store unavailable") ∧
    (failingAuther.GetUserInfo sampleExtern
        (failingAuther.DestroyToken ⟨(), []⟩ sampleNow Context.background
          (UserInfo.claims sampleClaims)).2 Context.background "t").1
      = Except.error (Err.other "store unavailable") := by
  refine ⟨?_, by decide, rfl, rfl⟩
  intro s c0 c2 key ttl h
  simp [failingStore] at h

/-- C16 (amended): revocation is idempotent. For a store in which every write
with a positive time to live succeeds and makes its key exist, claims whose
`expires-at` lies after both instants, and a token that parses to those
claims: `DestroyToken` returns no error the first time and the second time,
whether or not a validation comes in between, and `GetUserInfo` returns
`ErrExpiredToken` after the first call and after the second. -/
theorem destroyToken_idempotent {S : Type} (ext : Extern) (a : Auther S)
    (store : Storer S) (w : World S) (now1 now2 : Time) (c c1 : Context)
    (tkn raw : String) (claims : UserClaims)
    (hstore : a.store = some store)
    (hwrite : ∀ s c0 key ttl, 0 < ttl → (store.Set1 s c0 key ttl).1 = none)
    (hexists : ∀ s c0 c2 key ttl, 0 < ttl →
      (store.Check (store.Set1 s c0 key ttl).2 c2 key).1 = Except.ok true)
    (hfut1 : now1.nanos < claims.ExpiresAt * 1000000000)
    (hfut2 : now2.nanos < claims.ExpiresAt * 1000000000)
    (hraw : a.rawToken c1 tkn = Except.ok raw)
    (hparse : a.parse ext a.opts.parseClaimsFunc c1 raw = Except.ok claims) :
    (a.DestroyToken w now1 c (UserInfo.claims claims)).1 = none ∧
    (a.GetUserInfo ext (a.DestroyToken w now1 c (UserInfo.claims claims)).2 c1 tkn).1
      = Except.error Err.ErrExpiredToken ∧
    (a.DestroyToken
        (a.GetUserInfo ext (a.DestroyToken w now1 c (UserInfo.claims claims)).2 c1 tkn).2
        now2 c (UserInfo.claims claims)).1 = none ∧
    (a.GetUserInfo ext
        (a.DestroyToken
          (a.GetUserInfo ext (a.DestroyToken w now1 c (UserInfo.claims claims)).2
            c1 tkn).2
          now2 c (UserInfo.claims claims)).2 c1 tkn).1
      = Except.error Err.ErrExpiredToken ∧
    (a.DestroyToken (a.DestroyToken w now1 c (UserInfo.claims claims)).2 now2 c
        (UserInfo.claims claims)).1 = none ∧
    (a.GetUserInfo ext
        (a.DestroyToken (a.DestroyToken w now1 c (UserInfo.claims claims)).2 now2 c
          (UserInfo.claims claims)).2 c1 tkn).1
      = Except.error Err.ErrExpiredToken := by
  have httl : ∀ now : Time, now.nanos < claims.ExpiresAt * 1000000000 →
      0 < (unixTime claims.ExpiresAt).Sub now := by
    intro now hf
    simp only [Time.Sub, unixTime, Time.nanos] at *
    unfold minDuration maxDuration
    split
    · omega
    · split <;> omega
  have hD : ∀ (w0 : World S) (now : Time), now.nanos < claims.ExpiresAt * 1000000000 →
      (a.DestroyToken w0 now c (UserInfo.claims claims)).1 = none ∧
      (a.GetUserInfo ext (a.DestroyToken w0 now c (UserInfo.claims claims)).2 c1 tkn).1
        = Except.error Err.ErrExpiredToken := by
    intro w0 now hf
    have hpos := httl now hf
    constructor
    · simp only [Auther.DestroyToken, Auther.callStore, hstore, storeSet1]
      exact hwrite _ _ _ _ hpos
    · have hchk := hexists w0.state c c1 ("token:" ++ claims.GetTokenID) _ hpos
      simp [Auther.GetUserInfo, hraw, hparse, Auther.callStore, hstore, reverseCheck,
        storeCheck, Auther.DestroyToken, storeSet1, hchk]
  exact ⟨(hD w now1 hfut1).1, (hD w now1 hfut1).2, (hD _ now2 hfut2).1,
    (hD _ now2 hfut2).2, (hD _ now2 hfut2).1, (hD _ now2 hfut2).2⟩

/-- C16 (witness): the sample session, revoked at second 1000 and again at
second 1000 in `listStore`, is refused after each revocation. -/
theorem destroyToken_idempotent_witness :
    (sampleAuther.DestroyToken cleanWorld sampleNow Context.background
        (UserInfo.claims sampleClaims)).1 = none ∧
    (sampleAuther.GetUserInfo sampleExtern
        (sampleAuther.DestroyToken cleanWorld sampleNow Context.background
          (UserInfo.claims sampleClaims)).2 Context.background "t").1
      = Except.error Err.ErrExpiredToken ∧
    (sampleAuther.DestroyToken
        (sampleAuther.DestroyToken cleanWorld sampleNow Context.background
          (UserInfo.claims sampleClaims)).2 sampleNow Context.background
        (UserInfo.claims sampleClaims)).1 = none ∧
    (sampleAuther.GetUserInfo sampleExtern
        (sampleAuther.DestroyToken
          (sampleAuther.DestroyToken cleanWorld sampleNow Context.background
            (UserInfo.claims sampleClaims)).2 sampleNow Context.background
          (UserInfo.claims sampleClaims)).2 Context.background "t").1
      = Except.error Err.ErrExpiredToken :=
  ⟨(destroyToken_idempotent sampleExtern sampleAuther listStore cleanWorld sampleNow
      sampleNow Context.background Context.background "t" "t" sampleClaims rfl
      (by intro s c0 key ttl _; rfl)
      (by intro s c0 c2 key ttl _; simp [listStore])
      (by decide) (by decide) rfl rfl).1,
   (destroyToken_idempotent sampleExtern sampleAuther listStore cleanWorld sampleNow
      sampleNow Context.background Context.background "t" "t" sampleClaims rfl
      (by intro s c0 key ttl _; rfl)
      (by intro s c0 c2 key ttl _; simp [listStore])
      (by decide) (by decide) rfl rfl).2.1,
   (destroyToken_idempotent sampleExtern sampleAuther listStore cleanWorld sampleNow
      sampleNow Context.background Context.background "t" "t" sampleClaims rfl
      (by intro s c0 key ttl _; rfl)
      (by intro s c0 c2 key ttl _; simp [listStore])
      (by decide) (by decide) rfl rfl).2.2.2.2.1,
   (destroyToken_idempotent sampleExtern sampleAuther listStore cleanWorld sampleNow
      sampleNow Context.background Context.background "t" "t" sampleClaims rfl
      (by intro s c0 key ttl _; rfl)
      (by intro s c0 c2 key ttl _; simp [listStore])
      (by decide) (by decide) rfl rfl).2.2.2.2.2⟩

/-! ## Configuration -/

/-- Options that leave a projection of `options` alone leave it alone when
applied in sequence. -/
theorem foldl_proj {α : Type} (proj : options → α) (opts : List AuthOption)
    (o : options) (hopts : ∀ opt ∈ opts, ∀ o0, proj (opt o0) = proj o0) :
    proj (opts.foldl (fun o opt => opt o) o) = proj o := by
  induction opts generalizing o with
  | nil => rfl
  | cons opt rest ih =>
    simp only [List.foldl_cons]
    rw [ih (opt o) (fun x hx => hopts x (List.mem_cons_of_mem _ hx))]
    exact hopts opt (List.mem_cons_self _ _) o

/-- C17: configuration resolution. `New` starts from the defaults (token type
`"JWT"`, access lifetime 7200, refresh lifetime 604800, HS512) and applies the
options in list order: a field no option touches keeps its default (the
secret then being the generated one), the last setter of a field determines
its value whatever precedes it, and the resolved secret is never `nil`. -/
theorem new_resolves_options {S : Type} (ext : Extern) (store : Option (Storer S)) :
    (∀ opts : List AuthOption,
      (∀ opt ∈ opts, ∀ o0, (opt o0).tokenType = o0.tokenType) →
      (New ext store opts).opts.tokenType = "JWT") ∧
    (∀ opts : List AuthOption,
      (∀ opt ∈ opts, ∀ o0, (opt o0).expired = o0.expired) →
      (New ext store opts).opts.expired = 7200) ∧
    (∀ opts : List AuthOption,
      (∀ opt ∈ opts, ∀ o0, (opt o0).refresh = o0.refresh) →
      (New ext store opts).opts.refresh = 604800) ∧
    (∀ opts : List AuthOption,
      (∀ opt ∈ opts, ∀ o0, (opt o0).signingMethod = o0.signingMethod) →
      (New ext store opts).opts.signingMethod = SigningMethodHS512) ∧
    (∀ opts : List AuthOption,
      (∀ opt ∈ opts, ∀ o0, (opt o0).signingSecret = o0.signingSecret) →
      (New ext store opts).opts.signingSecret = some (Key.bytes (ext.UUID 32))) ∧
    (∀ (pre post : List AuthOption) (n : Int),
      (∀ opt ∈ post, ∀ o0, (opt o0).expired = o0.expired) →
      (New ext store (pre ++ SetExpired n :: post)).opts.expired = n) ∧
    (∀ (pre post : List AuthOption) (n : Int),
      (∀ opt ∈ post, ∀ o0, (opt o0).refresh = o0.refresh) →
      (New ext store (pre ++ SetRefresh n :: post)).opts.refresh = n) ∧
    (∀ (pre post : List AuthOption) (m : SigningMethod),
      (∀ opt ∈ post, ∀ o0, (opt o0).signingMethod = o0.signingMethod) →
      (New ext store (pre ++ SetSigningMethod m :: post)).opts.signingMethod = m) ∧
    (∀ (pre post : List AuthOption) (secret : String),
      (∀ opt ∈ post, ∀ o0, (opt o0).signingSecret = o0.signingSecret) →
      (New ext store (pre ++ SetSigningSecret secret :: post)).opts.signingSecret
        = some (Key.bytes secret)) ∧
    (∀ opts : List AuthOption, (New ext store opts).opts.signingSecret ≠ none) := by
  have hTok : ∀ (d : options) (opts : List AuthOption),
      (∀ opt ∈ opts, ∀ o0, (opt o0).tokenType = o0.tokenType) →
      (opts.foldl (fun o opt => opt o) d).tokenType = d.tokenType :=
    fun d opts h => foldl_proj (fun o => o.tokenType) opts d h
  have hExp : ∀ (d : options) (opts : List AuthOption),
      (∀ opt ∈ opts, ∀ o0, (opt o0).expired = o0.expired) →
      (opts.foldl (fun o opt => opt o) d).expired = d.expired :=
    fun d opts h => foldl_proj (fun o => o.expired) opts d h
  have hRef : ∀ (d : options) (opts : List AuthOption),
      (∀ opt ∈ opts, ∀ o0, (opt o0).refresh = o0.refresh) →
      (opts.foldl (fun o opt => opt o) d).refresh = d.refresh :=
    fun d opts h => foldl_proj (fun o => o.refresh) opts d h
  have hMet : ∀ (d : options) (opts : List AuthOption),
      (∀ opt ∈ opts, ∀ o0, (opt o0).signingMethod = o0.signingMethod) →
      (opts.foldl (fun o opt => opt o) d).signingMethod = d.signingMethod :=
    fun d opts h => foldl_proj (fun o => o.signingMethod) opts d h
  have hSec : ∀ (d : options) (opts : List AuthOption),
      (∀ opt ∈ opts, ∀ o0, (opt o0).signingSecret = o0.signingSecret) →
      (opts.foldl (fun o opt => opt o) d).signingSecret = d.signingSecret :=
    fun d opts h => foldl_proj (fun o => o.signingSecret) opts d h
  refine ⟨?_, ?_, ?_, ?_, ?_, ?_, ?_, ?_, ?_, ?_⟩
  · intro opts h
    simp only [New]
    split
    · exact hTok _ opts h
    · exact hTok _ opts h
  · intro opts h
    simp only [New]
    split
    · exact hExp _ opts h
    · exact hExp _ opts h
  · intro opts h
    simp only [New]
    split
    · exact hRef _ opts h
    · exact hRef _ opts h
  · intro opts h
    simp only [New]
    split
    · exact hMet _ opts h
    · exact hMet _ opts h
  · intro opts h
    simp only [New]
    split
    · rfl
    · rename_i k hk
      rw [hSec _ opts h] at hk
      cases hk
  · intro pre post n h
    simp only [New, List.foldl_append, List.foldl_cons]
    split
    · exact hExp _ post h
    · exact hExp _ post h
  · intro pre post n h
    simp only [New, List.foldl_append, List.foldl_cons]
    split
    · exact hRef _ post h
    · exact hRef _ post h
  · intro pre post m h
    simp only [New, List.foldl_append, List.foldl_cons]
    split
    · exact hMet _ post h
    · exact hMet _ post h
  · intro pre post secret h
    simp only [New, List.foldl_append, List.foldl_cons]
    split
    · rename_i hk
      rw [hSec _ post h] at hk
      cases hk
    · exact hSec _ post h
  · intro opts
    simp only [New]
    split
    · intro hk
      cases hk
    · rename_i k hk
      rw [hk]
      intro h0
      cases h0

/-- C17 (witness): of two `SetExpired` the later one wins, `SetRefresh` is
kept across a later `SetExpired`, the untouched method stays HS512 and the
untouched secret is the generated one. -/
theorem new_resolves_options_witness :
    (New sampleExtern (none : Option (Storer (List String)))
        ([SetExpired 60, SetRefresh 120] ++ SetExpired 90 :: [])).opts.expired = 90 ∧
    (New sampleExtern (none : Option (Storer (List String)))
        ([SetExpired 60] ++ SetRefresh 120 :: [SetExpired 90])).opts.refresh = 120 ∧
    (New sampleExtern (none : Option (Storer (List String)))
        [SetExpired 60]).opts.signingMethod = SigningMethodHS512 ∧
    (New sampleExtern (none : Option (Storer (List String)))
        [SetExpired 60]).opts.signingSecret
      = some (Key.bytes "0123456789abcdef0123456789abcdef") :=
  ⟨(new_resolves_options sampleExtern (none : Option (Storer (List String)))).2.2.2.2.2.1
      [SetExpired 60, SetRefresh 120] [] 90 (by intro opt h; cases h),
   (new_resolves_options sampleExtern
      (none : Option (Storer (List String)))).2.2.2.2.2.2.1
      [SetExpired 60] [SetExpired 90] 120
      (by
        intro opt h o0
        simp only [List.mem_singleton] at h
        subst h
        rfl),
   (new_resolves_options sampleExtern (none : Option (Storer (List String)))).2.2.2.1
      [SetExpired 60]
      (by
        intro opt h o0
        simp only [List.mem_singleton] at h
        subst h
        rfl),
   (new_resolves_options sampleExtern (none : Option (Storer (List String)))).2.2.2.2.1
      [SetExpired 60]
      (by
        intro opt h o0
        simp only [List.mem_singleton] at h
        subst h
        rfl)⟩

/-! ## Frame conditions -/

/-- C18: issuance leaves the revocation store alone. Whether `GenerateToken`
succeeds or fails, the world it returns is the world it was given: the same
store state and no store call recorded. -/
theorem generateToken_keeps_world {S : Type} (ext : Extern) (a : Auther S)
    (w : World S) (now : Time) (c : Context) (user : UserInfo) :
    (a.GenerateToken ext w now c user).2 = w := by
  rw [generateToken_eq]
  split
  · rfl
  · split
    · rfl
    · rfl

/-- C19: with no store configured, revocation is a no-op. For an `Auther`
whose store is `nil`, `DestroyToken` on any `*UserClaims` returns no error and
leaves the world alone, `GetUserInfo` returns the parsed claims for a token the
access parsing strategy accepts, `Release` returns no error, and `GetUserInfo`
still returns the claims after `DestroyToken` was called on them. -/
theorem no_store_no_revocation {S : Type} (ext : Extern) (a : Auther S) (w : World S)
    (now : Time) (c c1 : Context) (tkn raw : String) (claims : UserClaims)
    (hstore : a.store = none)
    (hraw : a.rawToken c1 tkn = Except.ok raw)
    (hparse : a.parse ext a.opts.parseClaimsFunc c1 raw = Except.ok claims) :
    (∀ cl, a.DestroyToken w now c (UserInfo.claims cl) = (none, w)) ∧
    a.GetUserInfo ext w c1 tkn = (Except.ok claims, w) ∧
    a.Release w = (none, w) ∧
    (a.GetUserInfo ext (a.DestroyToken w now c (UserInfo.claims claims)).2 c1 tkn).1
      = Except.ok claims := by
  have hD : ∀ cl, a.DestroyToken w now c (UserInfo.claims cl) = (none, w) := by
    intro cl
    simp [Auther.DestroyToken, Auther.callStore, hstore]
  have hG : a.GetUserInfo ext w c1 tkn = (Except.ok claims, w) := by
    simp [Auther.GetUserInfo, hraw, hparse, Auther.callStore, hstore]
  refine ⟨hD, hG, ?_, ?_⟩
  · simp [Auther.Release, Auther.callStore, hstore]
  · rw [hD claims, hG]

/-- C19 (witness): without a store the sample session validates before and
after its revocation, and nothing is recorded. -/
theorem no_store_no_revocation_witness :
    storelessAuther.DestroyToken cleanWorld sampleNow Context.background
        (UserInfo.claims sampleClaims) = (none, cleanWorld) ∧
    storelessAuther.GetUserInfo sampleExtern cleanWorld Context.background "t"
      = (Except.ok sampleClaims, cleanWorld) ∧
    storelessAuther.Release cleanWorld = (none, cleanWorld) ∧
    (storelessAuther.GetUserInfo sampleExtern
        (storelessAuther.DestroyToken cleanWorld sampleNow Context.background
          (UserInfo.claims sampleClaims)).2 Context.background "t").1
      = Except.ok sampleClaims :=
  ⟨(no_store_no_revocation sampleExtern storelessAuther cleanWorld sampleNow
      Context.background Context.background "t" "t" sampleClaims rfl rfl rfl).1
      sampleClaims,
   (no_store_no_revocation sampleExtern storelessAuther cleanWorld sampleNow
      Context.background Context.background "t" "t" sampleClaims rfl rfl rfl).2.1,
   (no_store_no_revocation sampleExtern storelessAuther cleanWorld sampleNow
      Context.background Context.background "t" "t" sampleClaims rfl rfl rfl).2.2.1,
   (no_store_no_revocation sampleExtern storelessAuther cleanWorld sampleNow
      Context.background Context.background "t" "t" sampleClaims rfl rfl rfl).2.2.2⟩

end Jwt
